import Mathlib

/-!
# VertexPropertySerializer (gremlin-javascript, GraphBinary)

A shallow embedding of
`gremlin-javascript/lib/structure/io/binary/internals/VertexPropertySerializer.js`
and a verification of its encode / decode contract.

The serializer delegates every field to collaborators reached through the
container `ioc` (`anySerializer`, `stringSerializer`,
`unspecifiedNullSerializer`, `utils.des_error`, `DataType.VERTEXPROPERTY`).
None of them lives in this file of the repository, so they are parameters of
the model, gathered in the structure `IOC`.
-/

namespace VertexPropertySerializer

/-! ## Data model -/

/-- One octet of a Node.js `Buffer`. -/
abbrev Byte := Fin 256

/-- A Node.js `Buffer`, as the sequence of its octets. -/
abbrev Buffer := List Byte

/-- Modelled from the spec: the class `g.VertexProperty` of `graph.js`, which
is not among the sources at hand. `vertexProperty` is an instance of it, with
the fields of the data model: `id`, `label` (a non-null text), `value`,
`properties`, and `parent`, which stands for whatever parent reference the
object holds in memory (`undefined` when none was attached). The other
constructors are the JavaScript values of other kinds; none of them has a
property `id`, `label`, `value` or `properties`. -/
inductive JSValue where
  | undefined
  | null
  | boolean (b : Bool)
  | number (n : Int)
  | string (s : String)
  | buffer (bytes : Buffer)
  | vertexProperty (id : JSValue) (label : String) (value properties parent : JSValue)
  deriving DecidableEq

/-- Property access `item.id`; a value without that property yields `undefined`. -/
def JSValue.id : JSValue → JSValue
  | .vertexProperty i _ _ _ _ => i
  | _ => .undefined

/-- Property access `item.label`. -/
def JSValue.label : JSValue → JSValue
  | .vertexProperty _ l _ _ _ => .string l
  | _ => .undefined

/-- Property access `item.value`. -/
def JSValue.value : JSValue → JSValue
  | .vertexProperty _ _ v _ _ => v
  | _ => .undefined

/-- Property access `item.properties`. -/
def JSValue.properties : JSValue → JSValue
  | .vertexProperty _ _ _ p _ => p
  | _ => .undefined

/-- The expression `new g.VertexProperty(id, label, value, properties)`: the
constructor receives four arguments and no parent. -/
def newVertexProperty (id : JSValue) (label : String) (value properties : JSValue) : JSValue :=
  .vertexProperty id label value properties .undefined

/-- A JavaScript `Error`; only `message` is ever rewritten by the serializer. -/
structure Error where
  name : String
  message : String
  deriving DecidableEq

/-- The expression `new Error(message)`. -/
def newError (message : String) : Error := ⟨"Error", message⟩

/-- The result object `{ v, len }` of a decoder; `len` counts the octets consumed. -/
structure Decoded where
  v : JSValue
  len : Nat
  deriving DecidableEq

/-- Modelled from the spec: the result object `{ v, len }` of the string
decoder (`StringSerializer.js`, not among the sources at hand), whose `v` is a text. -/
structure DecodedString where
  v : String
  len : Nat
  deriving DecidableEq

/-- The argument object of `utils.des_error`:
`{ serializer: this, args: arguments, cursor, err }`. A serializer instance is
identified by its object reference. -/
structure DesErrorArgs where
  serializer : Nat
  args : JSValue × Bool
  cursor : JSValue
  err : Error
  deriving DecidableEq

/-- The collaborator `ioc.anySerializer`, called with one argument. Encoders
return octets: `serialize` has no `try`, so an encoder that throws is not
part of what it computes. Decoders return `{ v, len }` or throw. -/
structure AnySerializer where
  serialize : JSValue → Buffer
  deserialize : Buffer → Except Error Decoded

/-- The collaborator `ioc.stringSerializer`, with its `fullyQualifiedFormat` flag. -/
structure StringSerializer where
  serialize : JSValue → Bool → Buffer
  deserialize : Buffer → Bool → Except Error DecodedString

/-- The collaborator `ioc.unspecifiedNullSerializer`. -/
structure UnspecifiedNullSerializer where
  serialize : JSValue → Buffer
  deserialize : Buffer → Except Error Decoded

/-- The table `ioc.DataType`; a type code is one octet of the wire format. -/
structure DataType where
  VERTEXPROPERTY : Byte

/-- The helpers `ioc.utils`. -/
structure Utils where
  des_error : DesErrorArgs → Error

/-- The container `ioc` handed to the constructor. `serializers` maps a type
code to the reference of the instance registered under it. -/
structure IOC where
  DataType : DataType
  serializers : Byte → Option Nat
  anySerializer : AnySerializer
  stringSerializer : StringSerializer
  unspecifiedNullSerializer : UnspecifiedNullSerializer
  utils : Utils

/-- An instance of the class: its object reference and the field `this.ioc`. -/
structure Instance where
  ref : Nat
  ioc : IOC

/-! ## Buffer primitives -/

/-- The call `Buffer.from(array)` on an array of octets. -/
def Buffer.from (octets : List Byte) : Buffer := octets

/-- The call `Buffer.concat(list)`. -/
def Buffer.concat (bufs : List Buffer) : Buffer := bufs.flatten

/-- The call `buf.slice(start)` with a non-negative `start`. -/
def Buffer.slice (buf : Buffer) (start : Nat) : Buffer := buf.drop start

/-- The call `buf.readUInt8()`: the octet at offset 0, a `RangeError` when there is none. -/
def Buffer.readUInt8 (buf : Buffer) : Except Error Byte :=
  match buf with
  | [] => .error ⟨"RangeError", "Attempt to access memory outside buffer bounds"⟩
  | b :: _ => .ok b

/-! ## The serializer -/

/-- The method `serialize(item, fullyQualifiedFormat = true)`. -/
def serialize (this : Instance) (item : JSValue) (fullyQualifiedFormat : Bool) : Buffer :=
  if item = .undefined ∨ item = .null then
    if fullyQualifiedFormat then
      Buffer.from [this.ioc.DataType.VERTEXPROPERTY, 0x01]
    else
      Buffer.concat [
        this.ioc.unspecifiedNullSerializer.serialize .null,
        this.ioc.stringSerializer.serialize (.string "") false,
        this.ioc.unspecifiedNullSerializer.serialize .null,
        this.ioc.unspecifiedNullSerializer.serialize .null,
        this.ioc.unspecifiedNullSerializer.serialize .null]
  else
    let bufs : List Buffer := []
    let bufs :=
      if fullyQualifiedFormat then bufs ++ [Buffer.from [this.ioc.DataType.VERTEXPROPERTY, 0x00]]
      else bufs
    let bufs := bufs ++ [this.ioc.anySerializer.serialize item.id]
    let bufs := bufs ++ [this.ioc.stringSerializer.serialize item.label false]
    let bufs := bufs ++ [this.ioc.anySerializer.serialize item.value]
    let bufs := bufs ++ [this.ioc.unspecifiedNullSerializer.serialize .null]
    let bufs := bufs ++ [this.ioc.anySerializer.serialize item.properties]
    Buffer.concat bufs

/-- The outer `catch`: whatever was thrown inside the `try` is replaced by
`utils.des_error({ serializer: this, args: arguments, cursor, err })`. -/
def rethrow (this : Instance) (buffer : JSValue) (fullyQualifiedFormat : Bool)
    (cursor : JSValue) (err : Error) : Except Error Decoded :=
  .error (this.ioc.utils.des_error ⟨this.ref, (buffer, fullyQualifiedFormat), cursor, err⟩)

/-- The inner `catch` of a field step: `err.message = prefix + err.message`. -/
def prependMessage (pre : String) (err : Error) : Error :=
  { err with message := pre ++ err.message }

/-- The five field steps of `deserialize`, started with the cursor and the
count `len` left by the header. -/
def deserializeFields (this : Instance) (buffer : JSValue) (fullyQualifiedFormat : Bool)
    (cursor : Buffer) (len : Nat) : Except Error Decoded :=
  -- {id}
  match this.ioc.anySerializer.deserialize cursor with
  | .error err => rethrow this buffer fullyQualifiedFormat (.buffer cursor) (prependMessage "{id}: " err)
  | .ok ⟨id, id_len⟩ =>
  let len := len + id_len
  let cursor := cursor.slice id_len
  -- {label}
  match this.ioc.stringSerializer.deserialize cursor false with
  | .error err => rethrow this buffer fullyQualifiedFormat (.buffer cursor) (prependMessage "{label}: " err)
  | .ok ⟨label, label_len⟩ =>
  let len := len + label_len
  let cursor := cursor.slice label_len
  -- {value}
  match this.ioc.anySerializer.deserialize cursor with
  | .error err => rethrow this buffer fullyQualifiedFormat (.buffer cursor) (prependMessage "{value}: " err)
  | .ok ⟨value, value_len⟩ =>
  let len := len + value_len
  let cursor := cursor.slice value_len
  -- {parent}
  match this.ioc.unspecifiedNullSerializer.deserialize cursor with
  | .error err => rethrow this buffer fullyQualifiedFormat (.buffer cursor) (prependMessage "{parent}: " err)
  | .ok ⟨_, parent_len⟩ =>
  let len := len + parent_len
  let cursor := cursor.slice parent_len
  -- {properties}
  match this.ioc.anySerializer.deserialize cursor with
  | .error err => rethrow this buffer fullyQualifiedFormat (.buffer cursor) (prependMessage "{properties}: " err)
  | .ok ⟨properties, properties_len⟩ =>
  let len := len + properties_len
  .ok ⟨newVertexProperty id label value properties, len⟩

/-- The method `deserialize(buffer, fullyQualifiedFormat = true)`. A thrown
value is the `error` of the result. -/
def deserialize (this : Instance) (buffer : JSValue) (fullyQualifiedFormat : Bool) :
    Except Error Decoded :=
  let len := 0
  match buffer with
  | .buffer cursor =>
    if cursor.length < 1 then
      rethrow this buffer fullyQualifiedFormat (.buffer cursor) (newError "buffer is empty")
    else if fullyQualifiedFormat then
      match cursor.readUInt8 with
      | .error err => rethrow this buffer fullyQualifiedFormat (.buffer cursor) err
      | .ok type_code =>
      let len := len + 1
      if type_code ≠ this.ioc.DataType.VERTEXPROPERTY then
        rethrow this buffer fullyQualifiedFormat (.buffer cursor) (newError "unexpected {type_code}")
      else
      let cursor := cursor.slice 1
      if cursor.length < 1 then
        rethrow this buffer fullyQualifiedFormat (.buffer cursor) (newError "{value_flag} is missing")
      else
      match cursor.readUInt8 with
      | .error err => rethrow this buffer fullyQualifiedFormat (.buffer cursor) err
      | .ok value_flag =>
      let len := len + 1
      if value_flag = 1 then
        .ok ⟨.null, len⟩
      else if value_flag ≠ 0 then
        rethrow this buffer fullyQualifiedFormat (.buffer cursor) (newError "unexpected {value_flag}")
      else
      let cursor := cursor.slice 1
      deserializeFields this buffer fullyQualifiedFormat cursor len
    else
      deserializeFields this buffer fullyQualifiedFormat cursor len
  | _ => rethrow this buffer fullyQualifiedFormat buffer (newError "buffer is missing")

/-- The input of `deserialize` whose field octets are `body`: behind the
header `[VERTEXPROPERTY, 0x00]` in fully-qualified format, bare otherwise. -/
def withHeader (this : Instance) (fullyQualifiedFormat : Bool) (body : Buffer) : Buffer :=
  if fullyQualifiedFormat then this.ioc.DataType.VERTEXPROPERTY :: 0 :: body else body

/-- The octets of the header in front of the fields: 2 in fully-qualified format, else 0. -/
def headerLength (fullyQualifiedFormat : Bool) : Nat :=
  if fullyQualifiedFormat then 2 else 0

/-- The failure of `deserialize` on `withHeader this fq body` when the step of
the field named by `field` throws `err` with the cursor at `cursor`: the
message of `err` gets `field` in front, and the outer `catch` wraps it. -/
def fieldFailure (this : Instance) (fq : Bool) (body cursor : Buffer) (field : String)
    (err : Error) : Except Error Decoded :=
  .error (this.ioc.utils.des_error
    ⟨this.ref, (.buffer (withHeader this fq body), fq), .buffer cursor,
      ⟨err.name, field ++ err.message⟩⟩)

/-- The collaborator decoders invert their encoders on a prefix: the generic
typed-value codec on every value, the bare string codec on every text, the
null codec on `null`; each reports the length of the encoding, whatever
octets follow it. -/
structure PrefixRoundTrip (ioc : IOC) : Prop where
  any : ∀ (x : JSValue) (rest : Buffer),
    ioc.anySerializer.deserialize (ioc.anySerializer.serialize x ++ rest)
      = .ok ⟨x, (ioc.anySerializer.serialize x).length⟩
  string : ∀ (s : String) (rest : Buffer),
    ioc.stringSerializer.deserialize (ioc.stringSerializer.serialize (.string s) false ++ rest) false
      = .ok ⟨s, (ioc.stringSerializer.serialize (.string s) false).length⟩
  null : ∀ (rest : Buffer),
    ioc.unspecifiedNullSerializer.deserialize
        (ioc.unspecifiedNullSerializer.serialize .null ++ rest)
      = .ok ⟨.null, (ioc.unspecifiedNullSerializer.serialize .null).length⟩

/-- The method `canBeUsedFor(value)`: `value instanceof g.VertexProperty`. -/
def canBeUsedFor (_this : Instance) (value : JSValue) : Bool :=
  match value with
  | .vertexProperty _ _ _ _ _ => true
  | _ => false

/-- The constructor `constructor(ioc)`, run for the fresh object `ref`:
`this.ioc = ioc`, then `this.ioc.serializers[ioc.DataType.VERTEXPROPERTY] = this`.
The container is shared, so `this.ioc` is the container after the assignment. -/
def new (ref : Nat) (ioc : IOC) : Instance :=
  { ref := ref
    ioc := { ioc with
      serializers := fun code =>
        if code = ioc.DataType.VERTEXPROPERTY then some ref else ioc.serializers code } }

/-- The instance `this` with the decoder of `ioc.unspecifiedNullSerializer` replaced by `d`. -/
def withNullDecoder (this : Instance) (d : Buffer → Except Error Decoded) : Instance :=
  { this with
    ioc := { this.ioc with
      unspecifiedNullSerializer := { this.ioc.unspecifiedNullSerializer with deserialize := d } } }

/-- The slice handed to the decoder of the parent slot when the field octets
are `body`: `body` without the octets reported by the id, label and value
decoders; none when one of these three fails. -/
def parentSlot (this : Instance) (body : Buffer) : Option Buffer :=
  match this.ioc.anySerializer.deserialize body with
  | .error _ => none
  | .ok i =>
    match this.ioc.stringSerializer.deserialize (body.drop i.len) false with
    | .error _ => none
    | .ok l =>
      match this.ioc.anySerializer.deserialize ((body.drop i.len).drop l.len) with
      | .error _ => none
      | .ok v => some (((body.drop i.len).drop l.len).drop v.len)

/-- Every collaborator decoder, when it succeeds, reports a length no greater
than the length of the slice it was given. -/
structure BoundedDecoders (ioc : IOC) : Prop where
  any : ∀ (c : Buffer) (r : Decoded),
    ioc.anySerializer.deserialize c = .ok r → r.len ≤ c.length
  string : ∀ (c : Buffer) (fq : Bool) (r : DecodedString),
    ioc.stringSerializer.deserialize c fq = .ok r → r.len ≤ c.length
  null : ∀ (c : Buffer) (r : Decoded),
    ioc.unspecifiedNullSerializer.deserialize c = .ok r → r.len ≤ c.length

/-! ## A concrete set of collaborators

A small, complete GraphBinary-like codec for `JSValue`, used to instantiate
the statements below on concrete inputs. A natural number is written in unary
(`n` octets `1`, then `0`); every value starts with a tag octet. -/

namespace Sample

/-- Unary encoding of a natural number. -/
def encodeNat (n : Nat) : Buffer := List.replicate n 1 ++ [0]

/-- Reads a unary natural number, returning it with the unread octets. -/
def decodeNat : Buffer → Option (Nat × Buffer)
  | [] => none
  | b :: rest =>
    if b = 0 then some (0, rest)
    else if b = 1 then
      match decodeNat rest with
      | some (n, r) => some (n + 1, r)
      | none => none
    else none

/-- Encoding of a sequence of natural numbers of known length. -/
def encodeNats : List Nat → Buffer
  | [] => []
  | n :: ns => encodeNat n ++ encodeNats ns

/-- Reads `count` unary natural numbers. -/
def decodeNats : Nat → Buffer → Option (List Nat × Buffer)
  | 0, buf => some ([], buf)
  | count + 1, buf =>
    match decodeNat buf with
    | none => none
    | some (n, r) =>
      match decodeNats count r with
      | none => none
      | some (ns, r2) => some (n :: ns, r2)

/-- Bare text: the number of characters, then each code point. -/
def encodeString (s : String) : Buffer :=
  encodeNat s.data.length ++ encodeNats (s.data.map Char.toNat)

/-- Reads a bare text. -/
def decodeString (buf : Buffer) : Option (String × Buffer) :=
  match decodeNat buf with
  | none => none
  | some (count, r) =>
    match decodeNats count r with
    | none => none
    | some (ns, r2) => some (String.mk (ns.map Char.ofNat), r2)

/-- Octets: their number, then the octets themselves. -/
def encodeBytes (bytes : Buffer) : Buffer := encodeNat bytes.length ++ bytes

/-- Reads a sequence of octets. -/
def decodeBytes (buf : Buffer) : Option (Buffer × Buffer) :=
  match decodeNat buf with
  | none => none
  | some (count, r) => if count ≤ r.length then some (r.take count, r.drop count) else none

/-- The typed encoding of a value. -/
def encode : JSValue → Buffer
  | .undefined => [0]
  | .null => [0xFE, 1]
  | .boolean b => [1, if b then 1 else 0]
  | .number (.ofNat k) => 2 :: 0 :: encodeNat k
  | .number (.negSucc k) => 2 :: 1 :: encodeNat k
  | .string s => 3 :: encodeString s
  | .buffer bytes => 4 :: encodeBytes bytes
  | .vertexProperty i l v p q =>
    5 :: (encode i ++ (encodeString l ++ (encode v ++ (encode p ++ encode q))))

/-- Reads one typed value, nesting at most `fuel` deep. -/
def decode : Nat → Buffer → Option (JSValue × Buffer)
  | 0, _ => none
  | _ + 1, [] => none
  | fuel + 1, tag :: rest =>
    if tag = 0 then some (.undefined, rest)
    else if tag = 0xFE then
      match rest with
      | flag :: r => if flag = 1 then some (.null, r) else none
      | [] => none
    else if tag = 1 then
      match rest with
      | b :: r => if b = 1 then some (.boolean true, r) else if b = 0 then some (.boolean false, r) else none
      | [] => none
    else if tag = 2 then
      match rest with
      | sign :: r =>
        match decodeNat r with
        | none => none
        | some (k, r2) =>
          if sign = 0 then some (.number (.ofNat k), r2)
          else if sign = 1 then some (.number (.negSucc k), r2)
          else none
      | [] => none
    else if tag = 3 then
      match decodeString rest with
      | none => none
      | some (s, r) => some (.string s, r)
    else if tag = 4 then
      match decodeBytes rest with
      | none => none
      | some (bytes, r) => some (.buffer bytes, r)
    else if tag = 5 then
      match decode fuel rest with
      | none => none
      | some (i, r1) =>
      match decodeString r1 with
      | none => none
      | some (l, r2) =>
      match decode fuel r2 with
      | none => none
      | some (v, r3) =>
      match decode fuel r3 with
      | none => none
      | some (p, r4) =>
      match decode fuel r4 with
      | none => none
      | some (q, r5) => some (.vertexProperty i l v p q, r5)
    else none

/-- A generic typed-value codec. -/
def anySerializer : AnySerializer where
  serialize := encode
  deserialize := fun buf =>
    match decode buf.length buf with
    | some (v, rest) => .ok ⟨v, buf.length - rest.length⟩
    | none => .error (newError "malformed value")

/-- A string codec; the fully-qualified form adds the octets `3, 0` in front. -/
def stringSerializer : StringSerializer where
  serialize := fun item fq =>
    (if fq then [3, 0] else []) ++
      (match item with
       | .string s => encodeString s
       | _ => encodeString "")
  deserialize := fun buf fq =>
    match (if fq then buf.drop 2 else buf) with
    | body =>
      match decodeString body with
      | some (s, rest) => .ok ⟨s, buf.length - rest.length⟩
      | none => .error (newError "malformed string")

/-- A null codec: the two octets `0xFE, 0x01`. -/
def unspecifiedNullSerializer : UnspecifiedNullSerializer where
  serialize := fun _ => [0xFE, 1]
  deserialize := fun buf =>
    match buf with
    | a :: b :: _ => if a = 0xFE ∧ b = 1 then .ok ⟨.null, 2⟩ else .error (newError "not a null")
    | _ => .error (newError "not a null")

/-- A container with the codecs above; `VERTEXPROPERTY` is `0x12`. -/
def ioc : IOC where
  DataType := ⟨0x12⟩
  serializers := fun _ => none
  anySerializer := anySerializer
  stringSerializer := stringSerializer
  unspecifiedNullSerializer := unspecifiedNullSerializer
  utils := ⟨fun a => { a.err with message := "VertexPropertySerializer: " ++ a.err.message }⟩

/-- A serializer instance over that container. -/
def serializer : Instance := ⟨1, ioc⟩

/-- A vertex property that holds a parent reference. -/
def item : JSValue :=
  .vertexProperty (.number 7) "name" (.string "marko") .null (.number 1)

/-- A decoder for the parent slot that consumes what the null codec consumes
and returns the number 42 in place of `null`. -/
def lenientNullDecoder (buf : Buffer) : Except Error Decoded :=
  match unspecifiedNullSerializer.deserialize buf with
  | .ok r => .ok ⟨.number 42, r.len⟩
  | .error err => .error err

/-- A `utils.des_error` that keeps the message of the underlying error and
tells, in the name of the error it returns, whether the cursor it was handed
has octets left. -/
def cursorUtils : Utils where
  des_error := fun a =>
    match a.cursor with
    | .buffer [] => ⟨"cursor at the end", a.err.message⟩
    | _ => ⟨"cursor before the end", a.err.message⟩

/-- The sample serializer with that `utils.des_error` in its container. -/
def tracingSerializer : Instance :=
  ⟨1, { ioc with utils := cursorUtils }⟩

/-- A null codec that writes `0xFD, 0x01`, which the generic codec above does not read. -/
def otherNullSerializer : UnspecifiedNullSerializer where
  serialize := fun _ => [0xFD, 1]
  deserialize := fun buf =>
    match buf with
    | a :: b :: _ => if a = 0xFD ∧ b = 1 then .ok ⟨.null, 2⟩ else .error (newError "not a null")
    | _ => .error (newError "not a null")

/-- The sample serializer with that other null codec in its container. -/
def otherSerializer : Instance :=
  ⟨1, { ioc with unspecifiedNullSerializer := otherNullSerializer }⟩

end Sample

/-! ## The sample collaborators invert their encoders -/

namespace Sample

theorem decodeNat_encodeNat (n : Nat) (rest : Buffer) :
    decodeNat (encodeNat n ++ rest) = some (n, rest) := by
  induction n with
  | zero => simp [encodeNat, decodeNat]
  | succ k ih =>
    have hk : encodeNat (k + 1) ++ rest = 1 :: (encodeNat k ++ rest) := by
      simp [encodeNat, List.replicate_succ]
    rw [hk]
    simp [decodeNat, ih]

theorem decodeNats_encodeNats (ns : List Nat) (rest : Buffer) :
    decodeNats ns.length (encodeNats ns ++ rest) = some (ns, rest) := by
  induction ns with
  | nil => simp [encodeNats, decodeNats]
  | cons n tl ih =>
    simp [encodeNats, decodeNats, List.append_assoc, decodeNat_encodeNat, ih]

theorem decodeString_encodeString (s : String) (rest : Buffer) :
    decodeString (encodeString s ++ rest) = some (s, rest) := by
  have h := decodeNats_encodeNats (s.data.map Char.toNat) rest
  simp only [List.length_map, ← String.length.eq_1] at h
  simp [decodeString, encodeString, List.append_assoc, decodeNat_encodeNat, h,
    Function.comp_def]

theorem decodeBytes_encodeBytes (bytes rest : Buffer) :
    decodeBytes (encodeBytes bytes ++ rest) = some (bytes, rest) := by
  simp [decodeBytes, encodeBytes, List.append_assoc, decodeNat_encodeNat]

theorem decode_encode (x : JSValue) :
    ∀ (fuel : Nat) (rest : Buffer), (encode x).length ≤ fuel →
      decode fuel (encode x ++ rest) = some (x, rest) := by
  induction x with
  | undefined =>
    intro fuel rest h
    cases fuel with
    | zero => simp [encode] at h
    | succ f => simp [encode, decode]
  | null =>
    intro fuel rest h
    cases fuel with
    | zero => simp [encode] at h
    | succ f => simp [encode, decode]
  | boolean b =>
    intro fuel rest h
    cases fuel with
    | zero => simp [encode] at h
    | succ f => cases b <;> simp [encode, decode]
  | number n =>
    intro fuel rest h
    cases fuel with
    | zero => cases n <;> simp [encode] at h
    | succ f => cases n <;> simp [encode, decode, decodeNat_encodeNat]
  | string s =>
    intro fuel rest h
    cases fuel with
    | zero => simp [encode] at h
    | succ f => simp [encode, decode, decodeString_encodeString]
  | buffer bytes =>
    intro fuel rest h
    cases fuel with
    | zero => simp [encode] at h
    | succ f => simp [encode, decode, decodeBytes_encodeBytes]
  | vertexProperty i l v p q ihi ihv ihp ihq =>
    intro fuel rest h
    cases fuel with
    | zero => simp [encode] at h
    | succ f =>
      simp only [encode, List.length_cons, List.length_append] at h
      have hi := ihi f (encodeString l ++ (encode v ++ (encode p ++ (encode q ++ rest))))
        (by omega)
      have hv := ihv f (encode p ++ (encode q ++ rest)) (by omega)
      have hp := ihp f (encode q ++ rest) (by omega)
      have hq := ihq f rest (by omega)
      simp [encode, decode, List.append_assoc, hi, decodeString_encodeString, hv, hp, hq]

theorem prefixRoundTrip : PrefixRoundTrip ioc where
  any := by
    intro x rest
    have h := decode_encode x ((encode x).length + rest.length) rest (by omega)
    simp [ioc, anySerializer, h]
  string := by
    intro s rest
    simp [ioc, stringSerializer, decodeString_encodeString]
  null := by
    intro rest
    simp [ioc, unspecifiedNullSerializer]

end Sample

/-! ## Encoding -/

/-- C2: a non-null item is written as the header `[VERTEXPROPERTY, 0x00]`
(fully-qualified format only) followed by id, label (bare string), value, a
null for the parent and properties, in that order; the parent reference held
by a vertex property has no influence on the output. -/
theorem serialize_layout (this : Instance) (item : JSValue)
    (hu : item ≠ .undefined) (hn : item ≠ .null) :
    serialize this item true =
        [this.ioc.DataType.VERTEXPROPERTY, 0x00]
          ++ this.ioc.anySerializer.serialize item.id
          ++ this.ioc.stringSerializer.serialize item.label false
          ++ this.ioc.anySerializer.serialize item.value
          ++ this.ioc.unspecifiedNullSerializer.serialize .null
          ++ this.ioc.anySerializer.serialize item.properties
    ∧ serialize this item false =
        this.ioc.anySerializer.serialize item.id
          ++ this.ioc.stringSerializer.serialize item.label false
          ++ this.ioc.anySerializer.serialize item.value
          ++ this.ioc.unspecifiedNullSerializer.serialize .null
          ++ this.ioc.anySerializer.serialize item.properties
    ∧ ∀ (i : JSValue) (l : String) (v p parent parent2 : JSValue) (fq : Bool),
        serialize this (.vertexProperty i l v p parent) fq
          = serialize this (.vertexProperty i l v p parent2) fq := by
  refine ⟨?_, ?_, ?_⟩
  · simp [serialize, hu, hn, Buffer.concat, Buffer.from]
  · simp [serialize, hu, hn, Buffer.concat]
  · intro i l v p parent parent2 fq
    simp [serialize, JSValue.id, JSValue.label, JSValue.value, JSValue.properties]

/-- C2 at the sample vertex property, which is neither `undefined` nor `null`. -/
theorem serialize_layout_witness :
    (Sample.item ≠ .undefined ∧ Sample.item ≠ .null) ∧
    serialize Sample.serializer Sample.item false =
        Sample.encode (.number 7) ++ Sample.encodeString "name"
          ++ Sample.encode (.string "marko") ++ [0xFE, 1] ++ Sample.encode .null :=
  ⟨⟨by simp [Sample.item], by simp [Sample.item]⟩,
   (serialize_layout Sample.serializer Sample.item
      (by simp [Sample.item]) (by simp [Sample.item])).2.1⟩

/-- C4: in fully-qualified format both `null` and `undefined` are written as
exactly the two octets `[VERTEXPROPERTY, 0x01]`, whatever the collaborator
encoders are. -/
theorem serialize_null_fullyQualified (this : Instance) :
    serialize this .null true = [this.ioc.DataType.VERTEXPROPERTY, 0x01]
    ∧ serialize this .undefined true = [this.ioc.DataType.VERTEXPROPERTY, 0x01]
    ∧ (serialize this .null true).length = 2
    ∧ (serialize this .undefined true).length = 2 := by
  simp [serialize, Buffer.from]

/-- C6: in bare format `null` and `undefined` are written as five
placeholders, null, the bare empty string, null, null, null, and nothing
else: the length is the sum of the five lengths. -/
theorem serialize_null_bare (this : Instance) :
    serialize this .null false =
        this.ioc.unspecifiedNullSerializer.serialize .null
          ++ this.ioc.stringSerializer.serialize (.string "") false
          ++ this.ioc.unspecifiedNullSerializer.serialize .null
          ++ this.ioc.unspecifiedNullSerializer.serialize .null
          ++ this.ioc.unspecifiedNullSerializer.serialize .null
    ∧ serialize this .undefined false = serialize this .null false
    ∧ (serialize this .null false).length =
        (this.ioc.unspecifiedNullSerializer.serialize .null).length
          + (this.ioc.stringSerializer.serialize (.string "") false).length
          + (this.ioc.unspecifiedNullSerializer.serialize .null).length
          + (this.ioc.unspecifiedNullSerializer.serialize .null).length
          + (this.ioc.unspecifiedNullSerializer.serialize .null).length := by
  refine ⟨?_, ?_, ?_⟩
  · simp [serialize, Buffer.concat]
  · simp [serialize]
  · simp [serialize, Buffer.concat]
    omega

/-! ## Decoding: the header -/

/-- C5: a buffer that starts with `[VERTEXPROPERTY, 0x01]` decodes, in
fully-qualified format, to `null` with two octets consumed, whatever follows
and whatever the collaborators are. -/
theorem deserialize_null_fullyQualified (this : Instance) (rest : Buffer) :
    deserialize this (.buffer (this.ioc.DataType.VERTEXPROPERTY :: 1 :: rest)) true
      = .ok ⟨.null, 2⟩ := by
  simp [deserialize, Buffer.readUInt8, Buffer.slice]

/-- C8: in fully-qualified format a first octet other than `VERTEXPROPERTY`
fails with `unexpected {type_code}`; the wrapper receives the whole input as
cursor, and neither the other octets nor a collaborator decoder decide the
underlying error. -/
theorem deserialize_unexpected_type_code (this : Instance) (b : Byte) (rest : Buffer)
    (h : b ≠ this.ioc.DataType.VERTEXPROPERTY) :
    deserialize this (.buffer (b :: rest)) true
      = .error (this.ioc.utils.des_error
          ⟨this.ref, (.buffer (b :: rest), true), .buffer (b :: rest),
            newError "unexpected {type_code}"⟩) := by
  simp [deserialize, Buffer.readUInt8, rethrow, h]

/-- C8 on the input `[0x11, 0x00, 0x07]`, whose first octet is not `0x12`. -/
theorem deserialize_unexpected_type_code_witness :
    (0x11 : Byte) ≠ Sample.serializer.ioc.DataType.VERTEXPROPERTY ∧
    deserialize Sample.serializer (.buffer [0x11, 0, 7]) true
      = .error ⟨"Error", "VertexPropertySerializer: unexpected {type_code}"⟩ :=
  ⟨by decide, deserialize_unexpected_type_code Sample.serializer 0x11 [0, 7] (by decide)⟩

/-- C9: in both formats a value that is not a buffer (`undefined`, `null`, or
anything else) fails with `buffer is missing` and a buffer of length 0 fails
with `buffer is empty`; no collaborator decoder takes part. -/
theorem deserialize_missing_or_empty (this : Instance) (fq : Bool) (buffer : JSValue)
    (h : ∀ bytes, buffer ≠ .buffer bytes) :
    deserialize this buffer fq
      = .error (this.ioc.utils.des_error
          ⟨this.ref, (buffer, fq), buffer, newError "buffer is missing"⟩)
    ∧ deserialize this .undefined fq
      = .error (this.ioc.utils.des_error
          ⟨this.ref, (.undefined, fq), .undefined, newError "buffer is missing"⟩)
    ∧ deserialize this .null fq
      = .error (this.ioc.utils.des_error
          ⟨this.ref, (.null, fq), .null, newError "buffer is missing"⟩)
    ∧ deserialize this (.buffer []) fq
      = .error (this.ioc.utils.des_error
          ⟨this.ref, (.buffer [], fq), .buffer [], newError "buffer is empty"⟩) := by
  refine ⟨?_, ?_, ?_, ?_⟩
  · cases buffer <;> simp [deserialize, rethrow] at h ⊢
  · simp [deserialize, rethrow]
  · simp [deserialize, rethrow]
  · simp [deserialize, rethrow]

/-- C9 on a string passed where a buffer is expected. -/
theorem deserialize_missing_or_empty_witness :
    (∀ bytes, JSValue.string "0x12" ≠ .buffer bytes) ∧
    deserialize Sample.serializer (.string "0x12") false
      = .error ⟨"Error", "VertexPropertySerializer: buffer is missing"⟩ :=
  ⟨by simp, (deserialize_missing_or_empty Sample.serializer false (.string "0x12") (by simp)).1⟩

/-- With a well-formed header in front (none in bare format) and a non-empty
input, `deserialize` is the five field steps run on the octets behind the header. -/
theorem deserialize_withHeader (this : Instance) (fq : Bool) (body : Buffer)
    (hne : withHeader this fq body ≠ []) :
    deserialize this (.buffer (withHeader this fq body)) fq
      = deserializeFields this (.buffer (withHeader this fq body)) fq body (headerLength fq) := by
  cases fq with
  | true => simp [deserialize, withHeader, headerLength, Buffer.readUInt8, Buffer.slice]
  | false =>
    have hlen : ¬ body.length < 1 := by
      cases body with
      | nil => simp [withHeader] at hne
      | cons b t => simp
    simp [deserialize, withHeader, headerLength] at hlen ⊢
    intro h
    exact absurd h hlen

/-- C10: behind the type code `VERTEXPROPERTY`, in fully-qualified format, a
second octet other than 0 and 1 fails with `unexpected {value_flag}`, a
missing second octet fails with `{value_flag} is missing`, a second octet
other than 0 gives an outcome in which no collaborator decoder takes part,
and a second octet 0 starts the field steps on the octets that follow. -/
theorem deserialize_value_flag (this : Instance) (flag : Byte) (rest : Buffer)
    (h0 : flag ≠ 0) (h1 : flag ≠ 1) :
    deserialize this (.buffer (this.ioc.DataType.VERTEXPROPERTY :: flag :: rest)) true
      = .error (this.ioc.utils.des_error
          ⟨this.ref, (.buffer (this.ioc.DataType.VERTEXPROPERTY :: flag :: rest), true),
            .buffer (flag :: rest), newError "unexpected {value_flag}"⟩)
    ∧ deserialize this (.buffer [this.ioc.DataType.VERTEXPROPERTY]) true
      = .error (this.ioc.utils.des_error
          ⟨this.ref, (.buffer [this.ioc.DataType.VERTEXPROPERTY], true),
            .buffer [], newError "{value_flag} is missing"⟩)
    ∧ (∀ (that : Instance) (f : Byte), f ≠ 0 →
        that.ref = this.ref → that.ioc.DataType = this.ioc.DataType →
        that.ioc.utils = this.ioc.utils →
        deserialize that (.buffer (this.ioc.DataType.VERTEXPROPERTY :: f :: rest)) true
          = deserialize this (.buffer (this.ioc.DataType.VERTEXPROPERTY :: f :: rest)) true)
    ∧ deserialize this (.buffer (this.ioc.DataType.VERTEXPROPERTY :: 0 :: rest)) true
      = deserializeFields this (.buffer (this.ioc.DataType.VERTEXPROPERTY :: 0 :: rest)) true
          rest 2 := by
  refine ⟨?_, ?_, ?_, ?_⟩
  · simp [deserialize, Buffer.readUInt8, Buffer.slice, rethrow, h0, h1]
  · simp [deserialize, Buffer.readUInt8, Buffer.slice, rethrow]
  · intro that f hf href hdt hut
    simp [deserialize, Buffer.readUInt8, Buffer.slice, rethrow, hf, href, hdt, hut]
  · simp [deserialize, Buffer.readUInt8, Buffer.slice]

/-- C10 on the input `[0x12, 0x02, 0x00]`, whose flag octet is 2. -/
theorem deserialize_value_flag_witness :
    ((2 : Byte) ≠ 0 ∧ (2 : Byte) ≠ 1) ∧
    deserialize Sample.serializer (.buffer [0x12, 2, 0]) true
      = .error ⟨"Error", "VertexPropertySerializer: unexpected {value_flag}"⟩ :=
  ⟨by decide, (deserialize_value_flag Sample.serializer 2 [0] (by decide) (by decide)).1⟩

/-! ## Decoding: the fields -/

/-- C7: when the header (if any) is well formed and the decoders of the
fields before `F` succeed, a failure `err` of the decoder of `F` makes
`deserialize` fail, and the error handed to `utils.des_error` is `err` with
the message `"{F}: " ++ err.message`, for `F` among id, label, value, parent
and properties; the cursor handed over is the one the failing decoder was
given. -/
theorem deserialize_field_error (this : Instance) (fq : Bool) (body : Buffer) (err : Error)
    (hne : withHeader this fq body ≠ []) :
    (this.ioc.anySerializer.deserialize body = .error err →
      deserialize this (.buffer (withHeader this fq body)) fq
        = fieldFailure this fq body body "{id}: " err)
    ∧ (∀ i : Decoded,
      this.ioc.anySerializer.deserialize body = .ok i →
      this.ioc.stringSerializer.deserialize (body.drop i.len) false = .error err →
      deserialize this (.buffer (withHeader this fq body)) fq
        = fieldFailure this fq body (body.drop i.len) "{label}: " err)
    ∧ (∀ (i : Decoded) (l : DecodedString),
      this.ioc.anySerializer.deserialize body = .ok i →
      this.ioc.stringSerializer.deserialize (body.drop i.len) false = .ok l →
      this.ioc.anySerializer.deserialize ((body.drop i.len).drop l.len) = .error err →
      deserialize this (.buffer (withHeader this fq body)) fq
        = fieldFailure this fq body ((body.drop i.len).drop l.len) "{value}: " err)
    ∧ (∀ (i : Decoded) (l : DecodedString) (v : Decoded),
      this.ioc.anySerializer.deserialize body = .ok i →
      this.ioc.stringSerializer.deserialize (body.drop i.len) false = .ok l →
      this.ioc.anySerializer.deserialize ((body.drop i.len).drop l.len) = .ok v →
      this.ioc.unspecifiedNullSerializer.deserialize
          (((body.drop i.len).drop l.len).drop v.len) = .error err →
      deserialize this (.buffer (withHeader this fq body)) fq
        = fieldFailure this fq body (((body.drop i.len).drop l.len).drop v.len)
            "{parent}: " err)
    ∧ (∀ (i : Decoded) (l : DecodedString) (v q : Decoded),
      this.ioc.anySerializer.deserialize body = .ok i →
      this.ioc.stringSerializer.deserialize (body.drop i.len) false = .ok l →
      this.ioc.anySerializer.deserialize ((body.drop i.len).drop l.len) = .ok v →
      this.ioc.unspecifiedNullSerializer.deserialize
          (((body.drop i.len).drop l.len).drop v.len) = .ok q →
      this.ioc.anySerializer.deserialize
          ((((body.drop i.len).drop l.len).drop v.len).drop q.len) = .error err →
      deserialize this (.buffer (withHeader this fq body)) fq
        = fieldFailure this fq body ((((body.drop i.len).drop l.len).drop v.len).drop q.len)
            "{properties}: " err) := by
  rw [deserialize_withHeader this fq body hne]
  refine ⟨?_, ?_, ?_, ?_, ?_⟩
  · intro hi
    simp [deserializeFields, hi, rethrow, fieldFailure, prependMessage]
  · intro i hi hl
    simp [deserializeFields, hi, hl, Buffer.slice, rethrow, fieldFailure, prependMessage]
  · intro i l hi hl hv
    simp only [List.drop_drop] at hv
    simp [deserializeFields, hi, hl, hv, Buffer.slice, rethrow, fieldFailure, prependMessage]
  · intro i l v hi hl hv hq
    simp only [List.drop_drop] at hv hq
    simp [deserializeFields, hi, hl, hv, hq, Buffer.slice, rethrow, fieldFailure,
      prependMessage]
  · intro i l v q hi hl hv hq hp
    simp only [List.drop_drop] at hv hq hp
    simp [deserializeFields, hi, hl, hv, hq, hp, Buffer.slice, rethrow, fieldFailure,
      prependMessage]

/-- C7 on the input `[0x12, 0x00, 0x00, 0x07]`: the id decodes to `undefined`
from one octet and the string decoder rejects the octet `0x07`. -/
theorem deserialize_field_error_witness :
    (withHeader Sample.serializer true [0, 7] ≠ []
      ∧ Sample.serializer.ioc.anySerializer.deserialize [0, 7] = .ok ⟨.undefined, 1⟩
      ∧ Sample.serializer.ioc.stringSerializer.deserialize [7] false
          = .error (newError "malformed string"))
    ∧ deserialize Sample.serializer (.buffer [0x12, 0, 0, 7]) true
        = .error ⟨"Error", "VertexPropertySerializer: {label}: malformed string"⟩ :=
  ⟨⟨by simp [withHeader], rfl, rfl⟩,
   (deserialize_field_error Sample.serializer true [0, 7] (newError "malformed string")
      (by simp [withHeader])).2.1 ⟨.undefined, 1⟩ rfl rfl⟩

/-! ## Round trip -/

/-- A generic codec that inverts its encoder on every value writes at least
one octet for each value: an empty encoding would decode every input to the
same value. -/
theorem any_serialize_ne_nil (ioc : IOC) (h : PrefixRoundTrip ioc) (x : JSValue) :
    ioc.anySerializer.serialize x ≠ [] := by
  intro hx
  have key : ∀ y : JSValue, x = y := by
    intro y
    have h1 := h.any x (ioc.anySerializer.serialize y)
    have h2 := h.any y []
    rw [hx] at h1
    simp only [List.nil_append, List.append_nil] at h1 h2
    rw [h1] at h2
    injection h2 with h3
    injection h3
  have hn := key .null
  have hu := key .undefined
  rw [hn] at hu
  cases hu

/-- The encoding of a vertex property is its five fields behind the header. -/
theorem serialize_eq_withHeader (this : Instance) (i : JSValue) (l : String)
    (v p parent : JSValue) (fq : Bool) (t : Buffer) :
    serialize this (.vertexProperty i l v p parent) fq ++ t
      = withHeader this fq
          (this.ioc.anySerializer.serialize i
            ++ (this.ioc.stringSerializer.serialize (.string l) false
            ++ (this.ioc.anySerializer.serialize v
            ++ (this.ioc.unspecifiedNullSerializer.serialize .null
            ++ (this.ioc.anySerializer.serialize p ++ t))))) := by
  cases fq <;>
    simp [serialize, withHeader, Buffer.concat, Buffer.from, JSValue.id, JSValue.label,
      JSValue.value, JSValue.properties]

/-- Decoding the encoding of a vertex property, followed by any octets `t`,
gives back its id, label, value and properties and the length of the encoding. -/
theorem deserialize_serialize_append (this : Instance) (h : PrefixRoundTrip this.ioc)
    (i : JSValue) (l : String) (v p parent : JSValue) (fq : Bool) (t : Buffer) :
    deserialize this (.buffer (serialize this (.vertexProperty i l v p parent) fq ++ t)) fq
      = .ok ⟨newVertexProperty i l v p,
          (serialize this (.vertexProperty i l v p parent) fq).length⟩ := by
  have hlen : (serialize this (.vertexProperty i l v p parent) fq).length
      = headerLength fq + (this.ioc.anySerializer.serialize i).length
        + (this.ioc.stringSerializer.serialize (.string l) false).length
        + (this.ioc.anySerializer.serialize v).length
        + (this.ioc.unspecifiedNullSerializer.serialize .null).length
        + (this.ioc.anySerializer.serialize p).length := by
    have := congrArg List.length (serialize_eq_withHeader this i l v p parent fq [])
    simp only [List.append_nil] at this
    rw [this]
    cases fq <;> simp [withHeader, headerLength] <;> omega
  rw [hlen, serialize_eq_withHeader]
  have hne : withHeader this fq
      (this.ioc.anySerializer.serialize i
        ++ (this.ioc.stringSerializer.serialize (.string l) false
        ++ (this.ioc.anySerializer.serialize v
        ++ (this.ioc.unspecifiedNullSerializer.serialize .null
        ++ (this.ioc.anySerializer.serialize p ++ t))))) ≠ [] := by
    cases fq with
    | true => simp [withHeader]
    | false =>
      have := any_serialize_ne_nil this.ioc h i
      simp [withHeader, this]
  rw [deserialize_withHeader this fq _ hne]
  simp [deserializeFields, h.any, h.string, h.null, Buffer.slice]

/-- C1: when the collaborator decoders invert their encoders on a prefix,
decoding the encoding of a vertex property (its label is text), in either
format, returns the vertex property built from the same id, label, value and
properties, with no parent attached, and the length of the encoding. -/
theorem deserialize_serialize (this : Instance) (h : PrefixRoundTrip this.ioc)
    (i : JSValue) (l : String) (v p parent : JSValue) (fq : Bool) :
    deserialize this (.buffer (serialize this (.vertexProperty i l v p parent) fq)) fq
      = .ok ⟨.vertexProperty i l v p .undefined,
          (serialize this (.vertexProperty i l v p parent) fq).length⟩ := by
  have := deserialize_serialize_append this h i l v p parent fq []
  simpa [newVertexProperty] using this

/-- C1 at the sample vertex property, bare format: the parent `1` is gone
from the decoded entity. -/
theorem deserialize_serialize_witness :
    PrefixRoundTrip Sample.serializer.ioc ∧
    deserialize Sample.serializer (.buffer (serialize Sample.serializer Sample.item false)) false
      = .ok ⟨.vertexProperty (.number 7) "name" (.string "marko") .null .undefined,
          (serialize Sample.serializer Sample.item false).length⟩ :=
  ⟨Sample.prefixRoundTrip,
   deserialize_serialize Sample.serializer Sample.prefixRoundTrip
     (.number 7) "name" (.string "marko") .null (.number 1) false⟩

/-- C3: when the collaborator decoders invert their encoders on a prefix,
decoding the encoding of a vertex property followed by trailing octets `t`
succeeds with the same entity as without them and reports the length of the
encoding alone, in either format. -/
theorem deserialize_ignores_trailing (this : Instance) (h : PrefixRoundTrip this.ioc)
    (i : JSValue) (l : String) (v p parent : JSValue) (fq : Bool) (t : Buffer) :
    ∃ e : JSValue,
      deserialize this (.buffer (serialize this (.vertexProperty i l v p parent) fq)) fq
          = .ok ⟨e, (serialize this (.vertexProperty i l v p parent) fq).length⟩
      ∧ deserialize this (.buffer (serialize this (.vertexProperty i l v p parent) fq ++ t)) fq
          = .ok ⟨e, (serialize this (.vertexProperty i l v p parent) fq).length⟩ := by
  refine ⟨newVertexProperty i l v p, ?_, deserialize_serialize_append this h i l v p parent fq t⟩
  have := deserialize_serialize_append this h i l v p parent fq []
  simpa using this

/-- C3 at the sample vertex property, fully-qualified format, followed by the
octets `[0x09, 0x09]`. -/
theorem deserialize_ignores_trailing_witness :
    PrefixRoundTrip Sample.serializer.ioc ∧
    ∃ e : JSValue,
      deserialize Sample.serializer (.buffer (serialize Sample.serializer Sample.item true)) true
          = .ok ⟨e, (serialize Sample.serializer Sample.item true).length⟩
      ∧ deserialize Sample.serializer
            (.buffer (serialize Sample.serializer Sample.item true ++ [9, 9])) true
          = .ok ⟨e, (serialize Sample.serializer Sample.item true).length⟩ :=
  ⟨Sample.prefixRoundTrip,
   deserialize_ignores_trailing Sample.serializer Sample.prefixRoundTrip
     (.number 7) "name" (.string "marko") .null (.number 1) true [9, 9]⟩

/-! ## Decoding: what a success tells -/

/-- The five field steps succeed exactly when each decoder succeeds on the
cursor left by the steps before it; the result is then the entity built from
the four decoded values and `len` increased by the five reported lengths. -/
theorem deserializeFields_ok_iff (this : Instance) (buffer : JSValue) (fq : Bool)
    (cursor : Buffer) (len : Nat) (r : Decoded) :
    deserializeFields this buffer fq cursor len = .ok r ↔
    ∃ (i : Decoded) (l : DecodedString) (v q p : Decoded),
      this.ioc.anySerializer.deserialize cursor = .ok i
      ∧ this.ioc.stringSerializer.deserialize (cursor.drop i.len) false = .ok l
      ∧ this.ioc.anySerializer.deserialize (cursor.drop (i.len + l.len)) = .ok v
      ∧ this.ioc.unspecifiedNullSerializer.deserialize
          (cursor.drop (i.len + l.len + v.len)) = .ok q
      ∧ this.ioc.anySerializer.deserialize
          (cursor.drop (i.len + l.len + v.len + q.len)) = .ok p
      ∧ r = ⟨newVertexProperty i.v l.v v.v p.v,
          len + i.len + l.len + v.len + q.len + p.len⟩ := by
  cases hi : this.ioc.anySerializer.deserialize cursor with
  | error e => simp [deserializeFields, hi, rethrow]
  | ok i =>
  cases hl : this.ioc.stringSerializer.deserialize (cursor.drop i.len) false with
  | error e => simp [deserializeFields, hi, hl, Buffer.slice, rethrow]
  | ok l =>
  cases hv : this.ioc.anySerializer.deserialize (cursor.drop (i.len + l.len)) with
  | error e => simp [deserializeFields, hi, hl, hv, Buffer.slice, rethrow]
  | ok v =>
  cases hq : this.ioc.unspecifiedNullSerializer.deserialize
      (cursor.drop (i.len + l.len + v.len)) with
  | error e => simp [deserializeFields, hi, hl, hv, hq, Buffer.slice, rethrow]
  | ok q =>
  cases hp : this.ioc.anySerializer.deserialize
      (cursor.drop (i.len + l.len + v.len + q.len)) with
  | error e => simp [deserializeFields, hi, hl, hv, hq, hp, Buffer.slice, rethrow]
  | ok p =>
    simp [deserializeFields, hi, hl, hv, hq, hp, Buffer.slice]
    exact eq_comm

/-- A success of `deserialize` is either the null of the fully-qualified
format, read from `[VERTEXPROPERTY, 0x01]`, or a success of the five field
steps behind a well-formed header (none in bare format) on a non-empty input. -/
theorem deserialize_ok_iff (this : Instance) (buffer : JSValue) (fq : Bool) (r : Decoded) :
    deserialize this buffer fq = .ok r ↔
    (fq = true ∧ r = ⟨.null, 2⟩
        ∧ ∃ rest, buffer = .buffer (this.ioc.DataType.VERTEXPROPERTY :: 1 :: rest))
    ∨ (∃ body, buffer = .buffer (withHeader this fq body) ∧ withHeader this fq body ≠ []
        ∧ deserializeFields this buffer fq body (headerLength fq) = .ok r) := by
  constructor
  · intro h
    cases buffer with
    | buffer bytes =>
      cases fq with
      | false =>
        cases bytes with
        | nil => simp [deserialize, rethrow] at h
        | cons b t =>
          right
          refine ⟨b :: t, by simp [withHeader], by simp [withHeader], ?_⟩
          simpa [deserialize, headerLength] using h
      | true =>
        cases bytes with
        | nil => simp [deserialize, rethrow] at h
        | cons b t =>
          by_cases hb : b = this.ioc.DataType.VERTEXPROPERTY
          · cases t with
            | nil => simp [deserialize, rethrow, Buffer.readUInt8, Buffer.slice, hb] at h
            | cons f rest =>
              by_cases h1 : f = 1
              · left
                subst h1
                subst hb
                simp [deserialize, Buffer.readUInt8, Buffer.slice] at h
                exact ⟨rfl, h.symm, rest, rfl⟩
              · by_cases h0 : f = 0
                · right
                  subst h0
                  subst hb
                  refine ⟨rest, by simp [withHeader], by simp [withHeader], ?_⟩
                  simpa [deserialize, headerLength, Buffer.readUInt8, Buffer.slice] using h
                · simp [deserialize, rethrow, Buffer.readUInt8, Buffer.slice, hb, h0, h1] at h
          · simp [deserialize, rethrow, Buffer.readUInt8, hb] at h
    | _ => simp [deserialize, rethrow] at h
  · rintro (⟨hfq, hr, rest, hbuf⟩ | ⟨body, hbuf, hne, hf⟩)
    · subst hfq
      subst hr
      subst hbuf
      simp [deserialize, Buffer.readUInt8, Buffer.slice]
    · rw [hbuf] at hf ⊢
      rw [deserialize_withHeader this fq body hne]
      exact hf

/-! ## The parent slot -/

/-- Two decoders for the parent slot that fail alike or report the same
length on the slice of that slot give the same outcome of the field steps. -/
theorem deserializeFields_withNullDecoder (this : Instance)
    (d1 d2 : Buffer → Except Error Decoded) (buffer : JSValue) (fq : Bool)
    (body : Buffer) (len : Nat)
    (h : ∀ c, parentSlot this body = some c →
      Except.map Decoded.len (d1 c) = Except.map Decoded.len (d2 c)) :
    deserializeFields (withNullDecoder this d1) buffer fq body len
      = deserializeFields (withNullDecoder this d2) buffer fq body len := by
  cases hi : this.ioc.anySerializer.deserialize body with
  | error e => simp [deserializeFields, withNullDecoder, hi, rethrow]
  | ok i =>
  cases hl : this.ioc.stringSerializer.deserialize (body.drop i.len) false with
  | error e => simp [deserializeFields, withNullDecoder, hi, hl, Buffer.slice, rethrow]
  | ok l =>
  cases hv : this.ioc.anySerializer.deserialize ((body.drop i.len).drop l.len) with
  | error e =>
    simp only [List.drop_drop] at hv
    simp [deserializeFields, withNullDecoder, hi, hl, hv, Buffer.slice, rethrow]
  | ok v =>
    have hc := h (((body.drop i.len).drop l.len).drop v.len)
      (by simp only [parentSlot, hi, hl, hv])
    simp only [List.drop_drop] at hv hc
    cases hd1 : d1 (List.drop (i.len + l.len + v.len) body) with
    | error e1 =>
      cases hd2 : d2 (List.drop (i.len + l.len + v.len) body) with
      | error e2 =>
        simp [hd1, hd2, Except.map] at hc
        simp [deserializeFields, withNullDecoder, hi, hl, hv, hd1, hd2, hc, Buffer.slice,
          rethrow]
      | ok q2 => simp [hd1, hd2, Except.map] at hc
    | ok q1 =>
      cases hd2 : d2 (List.drop (i.len + l.len + v.len) body) with
      | error e2 => simp [hd1, hd2, Except.map] at hc
      | ok q2 =>
        simp [hd1, hd2, Except.map] at hc
        simp [deserializeFields, withNullDecoder, hi, hl, hv, hd1, hd2, hc, Buffer.slice,
          rethrow]

/-- C11: the value returned by the decoder of the parent slot is never
looked at. Two such decoders that report the same length (or fail alike) on
the slice of the parent slot, whatever values they return, give the same
outcome on the same buffer; an entity that comes out is `null` or a vertex
property made of the decoded id, label, value and properties, with no parent
attached. A parent value other than `null` is therefore not rejected. -/
theorem deserialize_parent_lenient (this : Instance)
    (d1 d2 : Buffer → Except Error Decoded) (buffer : JSValue) (fq : Bool)
    (h : ∀ body c, buffer = .buffer (withHeader this fq body) →
      parentSlot this body = some c →
      Except.map Decoded.len (d1 c) = Except.map Decoded.len (d2 c)) :
    deserialize (withNullDecoder this d1) buffer fq
        = deserialize (withNullDecoder this d2) buffer fq
    ∧ ∀ r, deserialize (withNullDecoder this d1) buffer fq = .ok r →
        r.v = .null ∨ ∃ i l v p, r.v = .vertexProperty i l v p .undefined := by
  constructor
  · cases buffer with
    | buffer bytes =>
      cases fq with
      | false =>
        cases bytes with
        | nil => simp [deserialize, withNullDecoder, rethrow]
        | cons b t =>
          have hf := deserializeFields_withNullDecoder this d1 d2 (.buffer (b :: t)) false
            (b :: t) 0 (fun c hc => h (b :: t) c (by simp [withHeader]) hc)
          simpa [deserialize] using hf
      | true =>
        cases bytes with
        | nil => simp [deserialize, withNullDecoder, rethrow]
        | cons b t =>
          by_cases hb : b = this.ioc.DataType.VERTEXPROPERTY
          · cases t with
            | nil =>
              simp [deserialize, withNullDecoder, rethrow, Buffer.readUInt8, Buffer.slice]
            | cons f rest =>
              by_cases h0 : f = 0
              · subst h0
                subst hb
                have hf := deserializeFields_withNullDecoder this d1 d2
                  (.buffer (this.ioc.DataType.VERTEXPROPERTY :: 0 :: rest)) true rest 2
                  (fun c hc => h rest c (by simp [withHeader]) hc)
                simpa [deserialize, withNullDecoder, Buffer.readUInt8, Buffer.slice] using hf
              · simp [deserialize, withNullDecoder, rethrow, Buffer.readUInt8, Buffer.slice,
                  h0]
          · simp [deserialize, withNullDecoder, rethrow, Buffer.readUInt8, hb]
    | _ => simp [deserialize, withNullDecoder, rethrow]
  · intro r hr
    rcases (deserialize_ok_iff _ buffer fq r).1 hr with ⟨_, hnull, _⟩ | ⟨body, _, _, hf⟩
    · left
      rw [hnull]
    · right
      obtain ⟨i, l, v, q, p, _, _, _, _, _, hrv⟩ := (deserializeFields_ok_iff _ _ _ _ _ _).1 hf
      exact ⟨i.v, l.v, v.v, p.v, by rw [hrv]; rfl⟩

/-- C11 on the nine octets written for `null` in bare format: the lenient
decoder returns the number 42 for the parent, and the entity is the same as
with the null codec. -/
theorem deserialize_parent_lenient_witness :
    (∀ body c,
        JSValue.buffer [0xFE, 1, 0, 0xFE, 1, 0xFE, 1, 0xFE, 1]
          = .buffer (withHeader Sample.serializer false body) →
        parentSlot Sample.serializer body = some c →
        Except.map Decoded.len (Sample.unspecifiedNullSerializer.deserialize c)
          = Except.map Decoded.len (Sample.lenientNullDecoder c))
    ∧ Sample.lenientNullDecoder [0xFE, 1, 0xFE, 1] = .ok ⟨.number 42, 2⟩
    ∧ deserialize (withNullDecoder Sample.serializer Sample.lenientNullDecoder)
        (.buffer [0xFE, 1, 0, 0xFE, 1, 0xFE, 1, 0xFE, 1]) false
      = .ok ⟨.vertexProperty .null "" .null .null .undefined, 9⟩ :=
  have hyp : ∀ body c,
      JSValue.buffer [0xFE, 1, 0, 0xFE, 1, 0xFE, 1, 0xFE, 1]
        = .buffer (withHeader Sample.serializer false body) →
      parentSlot Sample.serializer body = some c →
      Except.map Decoded.len (Sample.unspecifiedNullSerializer.deserialize c)
        = Except.map Decoded.len (Sample.lenientNullDecoder c) := by
    intro body c _ _
    unfold Sample.lenientNullDecoder
    cases Sample.unspecifiedNullSerializer.deserialize c <;> rfl
  ⟨hyp, rfl,
   ((deserialize_parent_lenient Sample.serializer Sample.unspecifiedNullSerializer.deserialize
      Sample.lenientNullDecoder (.buffer [0xFE, 1, 0, 0xFE, 1, 0xFE, 1, 0xFE, 1]) false
      hyp).1.symm.trans rfl)⟩

/-! ## Failures -/

/-- The five field steps, case by case: they succeed when the five decoders
succeed, each on the cursor left by the fields before it; otherwise they fail
with `utils.des_error` applied to this serializer, the call arguments, the
cursor the first failing decoder was given, and the error of that decoder
with the name of its field in front of the message. -/
theorem deserializeFields_cases (this : Instance) (buffer : JSValue) (fq : Bool)
    (body : Buffer) (len : Nat) :
    (∃ (i : Decoded) (l : DecodedString) (v q p : Decoded),
        this.ioc.anySerializer.deserialize body = .ok i
        ∧ this.ioc.stringSerializer.deserialize (body.drop i.len) false = .ok l
        ∧ this.ioc.anySerializer.deserialize (body.drop (i.len + l.len)) = .ok v
        ∧ this.ioc.unspecifiedNullSerializer.deserialize
            (body.drop (i.len + l.len + v.len)) = .ok q
        ∧ this.ioc.anySerializer.deserialize
            (body.drop (i.len + l.len + v.len + q.len)) = .ok p
        ∧ deserializeFields this buffer fq body len
            = .ok ⟨.vertexProperty i.v l.v v.v p.v .undefined,
                len + i.len + l.len + v.len + q.len + p.len⟩)
    ∨ ∃ (cursor : Buffer) (err : Error),
        deserializeFields this buffer fq body len
          = .error (this.ioc.utils.des_error ⟨this.ref, (buffer, fq), .buffer cursor, err⟩)
        ∧
        ((∃ e : Error,
            this.ioc.anySerializer.deserialize body = .error e
            ∧ cursor = body
            ∧ err = ⟨e.name, "{id}: " ++ e.message⟩)
        ∨ (∃ (i : Decoded) (e : Error),
            this.ioc.anySerializer.deserialize body = .ok i
            ∧ this.ioc.stringSerializer.deserialize (body.drop i.len) false = .error e
            ∧ cursor = body.drop i.len
            ∧ err = ⟨e.name, "{label}: " ++ e.message⟩)
        ∨ (∃ (i : Decoded) (l : DecodedString) (e : Error),
            this.ioc.anySerializer.deserialize body = .ok i
            ∧ this.ioc.stringSerializer.deserialize (body.drop i.len) false = .ok l
            ∧ this.ioc.anySerializer.deserialize (body.drop (i.len + l.len)) = .error e
            ∧ cursor = body.drop (i.len + l.len)
            ∧ err = ⟨e.name, "{value}: " ++ e.message⟩)
        ∨ (∃ (i : Decoded) (l : DecodedString) (v : Decoded) (e : Error),
            this.ioc.anySerializer.deserialize body = .ok i
            ∧ this.ioc.stringSerializer.deserialize (body.drop i.len) false = .ok l
            ∧ this.ioc.anySerializer.deserialize (body.drop (i.len + l.len)) = .ok v
            ∧ this.ioc.unspecifiedNullSerializer.deserialize
                (body.drop (i.len + l.len + v.len)) = .error e
            ∧ cursor = body.drop (i.len + l.len + v.len)
            ∧ err = ⟨e.name, "{parent}: " ++ e.message⟩)
        ∨ (∃ (i : Decoded) (l : DecodedString) (v q : Decoded) (e : Error),
            this.ioc.anySerializer.deserialize body = .ok i
            ∧ this.ioc.stringSerializer.deserialize (body.drop i.len) false = .ok l
            ∧ this.ioc.anySerializer.deserialize (body.drop (i.len + l.len)) = .ok v
            ∧ this.ioc.unspecifiedNullSerializer.deserialize
                (body.drop (i.len + l.len + v.len)) = .ok q
            ∧ this.ioc.anySerializer.deserialize
                (body.drop (i.len + l.len + v.len + q.len)) = .error e
            ∧ cursor = body.drop (i.len + l.len + v.len + q.len)
            ∧ err = ⟨e.name, "{properties}: " ++ e.message⟩)) := by
  cases hi : this.ioc.anySerializer.deserialize body with
  | error e =>
    right
    refine ⟨_, _, ?_, Or.inl ⟨e, rfl, rfl, rfl⟩⟩
    simp [deserializeFields, hi, rethrow, prependMessage]
  | ok i =>
  cases hl : this.ioc.stringSerializer.deserialize (body.drop i.len) false with
  | error e =>
    right
    refine ⟨_, _, ?_, Or.inr (Or.inl ⟨i, e, rfl, hl, rfl, rfl⟩)⟩
    simp [deserializeFields, hi, hl, Buffer.slice, rethrow, prependMessage]
  | ok l =>
  cases hv : this.ioc.anySerializer.deserialize (body.drop (i.len + l.len)) with
  | error e =>
    right
    refine ⟨_, _, ?_, Or.inr (Or.inr (Or.inl ⟨i, l, e, rfl, hl, hv, rfl, rfl⟩))⟩
    simp [deserializeFields, hi, hl, hv, Buffer.slice, rethrow, prependMessage]
  | ok v =>
  cases hq : this.ioc.unspecifiedNullSerializer.deserialize
      (body.drop (i.len + l.len + v.len)) with
  | error e =>
    right
    refine ⟨_, _, ?_, Or.inr (Or.inr (Or.inr (Or.inl ⟨i, l, v, e, rfl, hl, hv, hq, rfl, rfl⟩)))⟩
    simp [deserializeFields, hi, hl, hv, hq, Buffer.slice, rethrow, prependMessage]
  | ok q =>
  cases hp : this.ioc.anySerializer.deserialize
      (body.drop (i.len + l.len + v.len + q.len)) with
  | error e =>
    right
    refine ⟨_, _, ?_,
      Or.inr (Or.inr (Or.inr (Or.inr ⟨i, l, v, q, e, rfl, hl, hv, hq, hp, rfl, rfl⟩)))⟩
    simp [deserializeFields, hi, hl, hv, hq, hp, Buffer.slice, rethrow, prependMessage]
  | ok p =>
    left
    exact ⟨i, l, v, q, p, rfl, hl, hv, hq, hp,
      (deserializeFields_ok_iff this buffer fq body len _).2
        ⟨i, l, v, q, p, hi, hl, hv, hq, hp, rfl⟩⟩

/-- C12, as stated, fails on the input `[0x12, 0x02]` in fully-qualified
format: the value flag 2 is rejected while the cursor still holds that
octet, so the cursor handed to `utils.des_error` is not the input with its
two header octets dropped, whatever number `k` of octets of decoded fields
is dropped with them. -/
theorem deserialize_failure_cursor_counterexample :
    deserialize Sample.tracingSerializer (.buffer [0x12, 2]) true
      = .error ⟨"cursor before the end", "unexpected {value_flag}"⟩
    ∧ ∀ (k : Nat) (err : Error),
        deserialize Sample.tracingSerializer (.buffer [0x12, 2]) true
          ≠ .error (Sample.tracingSerializer.ioc.utils.des_error
              ⟨Sample.tracingSerializer.ref, (.buffer [0x12, 2], true),
                .buffer (([0x12, 2] : Buffer).drop (headerLength true + k)), err⟩) := by
  refine ⟨rfl, ?_⟩
  intro k err h
  have hl : deserialize Sample.tracingSerializer (.buffer [0x12, 2]) true
      = .error ⟨"cursor before the end", "unexpected {value_flag}"⟩ := rfl
  have hd : ([0x12, 2] : Buffer).drop (headerLength true + k) = [] := by
    have h2 : headerLength true + k = k + 1 + 1 := by
      simp only [headerLength, if_true]
      omega
    rw [h2]
    simp
  rw [hl, hd] at h
  simp [Sample.tracingSerializer, Sample.cursorUtils] at h

/-- C12, amended: a call of `deserialize` either returns a complete result,
`null` with length 2 or the vertex property of the four decoded fields with
the header length plus the five reported lengths, or fails with the value of
`utils.des_error` applied to this serializer, the call arguments as they were
passed, the cursor at the moment of the failure and the underlying error.
Each failure is pinned: a value that is not a buffer, an empty buffer and a
wrong type code leave the cursor at the input itself; a missing or wrong
value flag leaves it at the input without its first octet; a failure of a
field step leaves it at the input without the header and without the octets
of the fields decoded before, and the underlying error is the error of the
failing decoder with the name of the field in front of its message. -/
theorem deserialize_failure_wrapped (this : Instance) (buffer : JSValue) (fq : Bool) :
    (∃ r, deserialize this buffer fq = .ok r
        ∧ ((fq = true ∧ r = ⟨.null, 2⟩
              ∧ ∃ rest, buffer = .buffer (this.ioc.DataType.VERTEXPROPERTY :: 1 :: rest))
          ∨ ∃ (body : Buffer) (i : Decoded) (l : DecodedString) (v q p : Decoded),
              buffer = .buffer (withHeader this fq body)
              ∧ withHeader this fq body ≠ []
              ∧
              this.ioc.anySerializer.deserialize body = .ok i
              ∧ this.ioc.stringSerializer.deserialize (body.drop i.len) false = .ok l
              ∧ this.ioc.anySerializer.deserialize (body.drop (i.len + l.len)) = .ok v
              ∧ this.ioc.unspecifiedNullSerializer.deserialize
                  (body.drop (i.len + l.len + v.len)) = .ok q
              ∧ this.ioc.anySerializer.deserialize
                  (body.drop (i.len + l.len + v.len + q.len)) = .ok p
              ∧ r = ⟨.vertexProperty i.v l.v v.v p.v .undefined,
                  headerLength fq + i.len + l.len + v.len + q.len + p.len⟩))
    ∨ ∃ (cursor : JSValue) (err : Error),
        deserialize this buffer fq
          = .error (this.ioc.utils.des_error ⟨this.ref, (buffer, fq), cursor, err⟩)
        ∧ (((∀ bytes, buffer ≠ .buffer bytes) ∧ cursor = buffer
              ∧ err = newError "buffer is missing")
          ∨ (buffer = .buffer [] ∧ cursor = .buffer []
              ∧ err = newError "buffer is empty")
          ∨ (fq = true ∧ ∃ (b : Byte) (rest : Buffer),
              buffer = .buffer (b :: rest) ∧ b ≠ this.ioc.DataType.VERTEXPROPERTY
              ∧ cursor = .buffer (b :: rest)
              ∧ err = newError "unexpected {type_code}")
          ∨ (fq = true ∧ buffer = .buffer [this.ioc.DataType.VERTEXPROPERTY]
              ∧ cursor = .buffer []
              ∧ err = newError "{value_flag} is missing")
          ∨ (fq = true ∧ ∃ (f : Byte) (rest : Buffer),
              buffer = .buffer (this.ioc.DataType.VERTEXPROPERTY :: f :: rest)
              ∧ f ≠ 0 ∧ f ≠ 1
              ∧ cursor = .buffer (f :: rest)
              ∧ err = newError "unexpected {value_flag}")
          ∨ ∃ body : Buffer,
              buffer = .buffer (withHeader this fq body)
              ∧ withHeader this fq body ≠ []
              ∧
              ((∃ e : Error,
                  this.ioc.anySerializer.deserialize body = .error e
                  ∧ cursor = .buffer body
                  ∧ err = ⟨e.name, "{id}: " ++ e.message⟩)
              ∨ (∃ (i : Decoded) (e : Error),
                  this.ioc.anySerializer.deserialize body = .ok i
                  ∧ this.ioc.stringSerializer.deserialize (body.drop i.len) false = .error e
                  ∧ cursor = .buffer (body.drop i.len)
                  ∧ err = ⟨e.name, "{label}: " ++ e.message⟩)
              ∨ (∃ (i : Decoded) (l : DecodedString) (e : Error),
                  this.ioc.anySerializer.deserialize body = .ok i
                  ∧ this.ioc.stringSerializer.deserialize (body.drop i.len) false = .ok l
                  ∧ this.ioc.anySerializer.deserialize (body.drop (i.len + l.len)) = .error e
                  ∧ cursor = .buffer (body.drop (i.len + l.len))
                  ∧ err = ⟨e.name, "{value}: " ++ e.message⟩)
              ∨ (∃ (i : Decoded) (l : DecodedString) (v : Decoded) (e : Error),
                  this.ioc.anySerializer.deserialize body = .ok i
                  ∧ this.ioc.stringSerializer.deserialize (body.drop i.len) false = .ok l
                  ∧ this.ioc.anySerializer.deserialize (body.drop (i.len + l.len)) = .ok v
                  ∧ this.ioc.unspecifiedNullSerializer.deserialize
                      (body.drop (i.len + l.len + v.len)) = .error e
                  ∧ cursor = .buffer (body.drop (i.len + l.len + v.len))
                  ∧ err = ⟨e.name, "{parent}: " ++ e.message⟩)
              ∨ (∃ (i : Decoded) (l : DecodedString) (v q : Decoded) (e : Error),
                  this.ioc.anySerializer.deserialize body = .ok i
                  ∧ this.ioc.stringSerializer.deserialize (body.drop i.len) false = .ok l
                  ∧ this.ioc.anySerializer.deserialize (body.drop (i.len + l.len)) = .ok v
                  ∧ this.ioc.unspecifiedNullSerializer.deserialize
                      (body.drop (i.len + l.len + v.len)) = .ok q
                  ∧ this.ioc.anySerializer.deserialize
                      (body.drop (i.len + l.len + v.len + q.len)) = .error e
                  ∧ cursor = .buffer (body.drop (i.len + l.len + v.len + q.len))
                  ∧ err = ⟨e.name, "{properties}: " ++ e.message⟩))) := by
  by_cases hex : ∃ body, buffer = .buffer (withHeader this fq body)
      ∧ withHeader this fq body ≠ []
  · obtain ⟨body, hbuf, hne⟩ := hex
    subst hbuf
    rw [deserialize_withHeader this fq body hne]
    rcases deserializeFields_cases this (.buffer (withHeader this fq body)) fq body
      (headerLength fq) with ⟨i, l, v, q, p, hi, hl, hv, hq, hp, hr⟩ | ⟨c, err, he, hsteps⟩
    · left
      exact ⟨_, hr, Or.inr ⟨body, i, l, v, q, p, rfl, hne, hi, hl, hv, hq, hp, rfl⟩⟩
    · right
      refine ⟨.buffer c, err, he,
        Or.inr (Or.inr (Or.inr (Or.inr (Or.inr ⟨body, rfl, hne, ?_⟩))))⟩
      rcases hsteps with ⟨e, h1, hc, herr⟩ | ⟨i, e, h1, h2, hc, herr⟩
        | ⟨i, l, e, h1, h2, h3, hc, herr⟩ | ⟨i, l, v, e, h1, h2, h3, h4, hc, herr⟩
        | ⟨i, l, v, q, e, h1, h2, h3, h4, h5, hc, herr⟩
      · exact Or.inl ⟨e, h1, by rw [hc], herr⟩
      · exact Or.inr (Or.inl ⟨i, e, h1, h2, by rw [hc], herr⟩)
      · exact Or.inr (Or.inr (Or.inl ⟨i, l, e, h1, h2, h3, by rw [hc], herr⟩))
      · exact Or.inr (Or.inr (Or.inr (Or.inl ⟨i, l, v, e, h1, h2, h3, h4, by rw [hc], herr⟩)))
      · exact Or.inr (Or.inr (Or.inr (Or.inr
          ⟨i, l, v, q, e, h1, h2, h3, h4, h5, by rw [hc], herr⟩)))
  · cases buffer with
    | buffer bytes =>
      cases bytes with
      | nil =>
        right
        exact ⟨.buffer [], newError "buffer is empty", by simp [deserialize, rethrow],
          Or.inr (Or.inl ⟨rfl, rfl, rfl⟩)⟩
      | cons b t =>
        cases fq with
        | false => exact absurd ⟨b :: t, by simp [withHeader], by simp [withHeader]⟩ hex
        | true =>
          by_cases hb : b = this.ioc.DataType.VERTEXPROPERTY
          · subst hb
            cases t with
            | nil =>
              right
              refine ⟨.buffer [], newError "{value_flag} is missing", ?_,
                Or.inr (Or.inr (Or.inr (Or.inl ⟨rfl, rfl, rfl, rfl⟩)))⟩
              simp [deserialize, rethrow, Buffer.readUInt8, Buffer.slice]
            | cons f rest =>
              by_cases h1 : f = 1
              · left
                subst h1
                refine ⟨⟨.null, 2⟩, ?_, Or.inl ⟨rfl, rfl, rest, rfl⟩⟩
                simp [deserialize, Buffer.readUInt8, Buffer.slice]
              · by_cases h0 : f = 0
                · subst h0
                  exact absurd ⟨rest, by simp [withHeader], by simp [withHeader]⟩ hex
                · right
                  refine ⟨.buffer (f :: rest), newError "unexpected {value_flag}", ?_,
                    Or.inr (Or.inr (Or.inr (Or.inr (Or.inl
                      ⟨rfl, f, rest, rfl, h0, h1, rfl, rfl⟩))))⟩
                  simp [deserialize, rethrow, Buffer.readUInt8, Buffer.slice, h0, h1]
          · right
            refine ⟨.buffer (b :: t), newError "unexpected {type_code}", ?_,
              Or.inr (Or.inr (Or.inl ⟨rfl, b, t, rfl, hb, rfl, rfl⟩))⟩
            simp [deserialize, rethrow, Buffer.readUInt8, hb]
    | undefined =>
      right
      exact ⟨_, newError "buffer is missing", by simp [deserialize, rethrow],
        Or.inl ⟨by simp, rfl, rfl⟩⟩
    | null =>
      right
      exact ⟨_, newError "buffer is missing", by simp [deserialize, rethrow],
        Or.inl ⟨by simp, rfl, rfl⟩⟩
    | boolean b =>
      right
      exact ⟨_, newError "buffer is missing", by simp [deserialize, rethrow],
        Or.inl ⟨by simp, rfl, rfl⟩⟩
    | number n =>
      right
      exact ⟨_, newError "buffer is missing", by simp [deserialize, rethrow],
        Or.inl ⟨by simp, rfl, rfl⟩⟩
    | string s =>
      right
      exact ⟨_, newError "buffer is missing", by simp [deserialize, rethrow],
        Or.inl ⟨by simp, rfl, rfl⟩⟩
    | vertexProperty i l v p q =>
      right
      exact ⟨_, newError "buffer is missing", by simp [deserialize, rethrow],
        Or.inl ⟨by simp, rfl, rfl⟩⟩

/-! ## Dispatch and registration -/

/-- C13: `canBeUsedFor` answers true exactly for the instances of
`g.VertexProperty`, and false for `null`, for `undefined` and for the values
of every other kind. -/
theorem canBeUsedFor_iff (this : Instance) (value : JSValue) :
    (canBeUsedFor this value = true ↔ ∃ i l v p q, value = .vertexProperty i l v p q)
    ∧ canBeUsedFor this .null = false
    ∧ canBeUsedFor this .undefined = false
    ∧ (∀ b, canBeUsedFor this (.boolean b) = false)
    ∧ (∀ n, canBeUsedFor this (.number n) = false)
    ∧ (∀ s, canBeUsedFor this (.string s) = false)
    ∧ (∀ bytes, canBeUsedFor this (.buffer bytes) = false) := by
  refine ⟨?_, rfl, rfl, fun _ => rfl, fun _ => rfl, fun _ => rfl, fun _ => rfl⟩
  cases value <;> simp [canBeUsedFor]

/-- C14: when `deserialize` succeeds with an entity other than `null`, the
five decoders succeeded, in the order id, label, value, parent, properties,
each on the input without the header (2 octets in fully-qualified format,
else 0) and without the lengths reported by the fields before it; the
entity is made of the decoded id, label, value and properties, and the
returned `len` is the header length plus the five reported lengths. -/
theorem deserialize_cursor_bookkeeping (this : Instance) (buffer : JSValue) (fq : Bool)
    (r : Decoded) (hok : deserialize this buffer fq = .ok r) (hv : r.v ≠ .null) :
    ∃ (bytes : Buffer) (i : Decoded) (l : DecodedString) (v q p : Decoded),
      buffer = .buffer bytes
      ∧ this.ioc.anySerializer.deserialize (bytes.drop (headerLength fq)) = .ok i
      ∧ this.ioc.stringSerializer.deserialize
          (bytes.drop (headerLength fq + i.len)) false = .ok l
      ∧ this.ioc.anySerializer.deserialize
          (bytes.drop (headerLength fq + i.len + l.len)) = .ok v
      ∧ this.ioc.unspecifiedNullSerializer.deserialize
          (bytes.drop (headerLength fq + i.len + l.len + v.len)) = .ok q
      ∧ this.ioc.anySerializer.deserialize
          (bytes.drop (headerLength fq + i.len + l.len + v.len + q.len)) = .ok p
      ∧ r.v = .vertexProperty i.v l.v v.v p.v .undefined
      ∧ r.len = headerLength fq + i.len + l.len + v.len + q.len + p.len := by
  rcases (deserialize_ok_iff this buffer fq r).1 hok with ⟨_, hnull, _⟩ | ⟨body, hbuf, _, hf⟩
  · rw [hnull] at hv
    exact absurd rfl hv
  · obtain ⟨i, l, v, q, p, hi, hl, hv2, hq, hp, hr⟩ :=
      (deserializeFields_ok_iff _ _ _ _ _ _).1 hf
    have hdrop : ∀ n, (withHeader this fq body).drop (headerLength fq + n) = body.drop n := by
      intro n
      cases fq with
      | false => simp [withHeader, headerLength]
      | true =>
        have h2 : 2 + n = n + 1 + 1 := by omega
        simp [withHeader, headerLength, h2]
    refine ⟨withHeader this fq body, i, l, v, q, p, hbuf, ?_, ?_, ?_, ?_, ?_, ?_, ?_⟩
    · have e := hdrop 0
      rw [Nat.add_zero] at e
      rw [e]
      exact hi
    · rw [hdrop]
      exact hl
    · have e : headerLength fq + i.len + l.len = headerLength fq + (i.len + l.len) := by omega
      rw [e, hdrop]
      exact hv2
    · have e : headerLength fq + i.len + l.len + v.len
          = headerLength fq + (i.len + l.len + v.len) := by omega
      rw [e, hdrop]
      exact hq
    · have e : headerLength fq + i.len + l.len + v.len + q.len
          = headerLength fq + (i.len + l.len + v.len + q.len) := by omega
      rw [e, hdrop]
      exact hp
    · rw [hr]
      rfl
    · rw [hr]

/-- C14 on the nine octets written for `null` in bare format, which decode
to a vertex property. -/
theorem deserialize_cursor_bookkeeping_witness :
    (deserialize Sample.serializer (.buffer [0xFE, 1, 0, 0xFE, 1, 0xFE, 1, 0xFE, 1]) false
        = .ok ⟨.vertexProperty .null "" .null .null .undefined, 9⟩
      ∧ JSValue.vertexProperty .null "" .null .null .undefined ≠ .null)
    ∧ ∃ (bytes : Buffer) (i : Decoded) (l : DecodedString) (v q p : Decoded),
      JSValue.buffer [0xFE, 1, 0, 0xFE, 1, 0xFE, 1, 0xFE, 1] = .buffer bytes
      ∧ Sample.anySerializer.deserialize (bytes.drop 0) = .ok i
      ∧ Sample.stringSerializer.deserialize (bytes.drop (0 + i.len)) false = .ok l
      ∧ Sample.anySerializer.deserialize (bytes.drop (0 + i.len + l.len)) = .ok v
      ∧ Sample.unspecifiedNullSerializer.deserialize
          (bytes.drop (0 + i.len + l.len + v.len)) = .ok q
      ∧ Sample.anySerializer.deserialize
          (bytes.drop (0 + i.len + l.len + v.len + q.len)) = .ok p
      ∧ JSValue.vertexProperty .null "" .null .null .undefined
          = .vertexProperty i.v l.v v.v p.v .undefined
      ∧ 9 = 0 + i.len + l.len + v.len + q.len + p.len :=
  ⟨⟨rfl, by simp⟩,
   deserialize_cursor_bookkeeping Sample.serializer
     (.buffer [0xFE, 1, 0, 0xFE, 1, 0xFE, 1, 0xFE, 1]) false
     ⟨.vertexProperty .null "" .null .null .undefined, 9⟩ rfl (by simp)⟩

/-- C15: constructing the serializer for a container stores the new
instance under `DataType.VERTEXPROPERTY` in `ioc.serializers` and leaves
every other entry, and every other part of the container, as it was. -/
theorem new_registers (ref : Nat) (ioc : IOC) (code : Byte)
    (h : code ≠ ioc.DataType.VERTEXPROPERTY) :
    (new ref ioc).ref = ref
    ∧ (new ref ioc).ioc.serializers ioc.DataType.VERTEXPROPERTY = some ref
    ∧ (new ref ioc).ioc.serializers code = ioc.serializers code
    ∧ (new ref ioc).ioc.DataType = ioc.DataType
    ∧ (new ref ioc).ioc.anySerializer = ioc.anySerializer
    ∧ (new ref ioc).ioc.stringSerializer = ioc.stringSerializer
    ∧ (new ref ioc).ioc.unspecifiedNullSerializer = ioc.unspecifiedNullSerializer
    ∧ (new ref ioc).ioc.utils = ioc.utils := by
  simp [new, h]

/-- C15 on the sample container, whose table is empty before: the entry
`0x12` becomes the new instance and the entry `0x03` stays empty. -/
theorem new_registers_witness :
    (0x03 : Byte) ≠ Sample.ioc.DataType.VERTEXPROPERTY
    ∧ (new 5 Sample.ioc).ioc.serializers 0x12 = some 5
    ∧ (new 5 Sample.ioc).ioc.serializers 0x03 = none :=
  ⟨by decide, (new_registers 5 Sample.ioc 0x03 (by decide)).2.1,
   (new_registers 5 Sample.ioc 0x03 (by decide)).2.2.1⟩

/-! ## The two formats -/

/-- C16: for an item other than `null` and `undefined` the fully-qualified
encoding is `[VERTEXPROPERTY, 0x00]` followed by the bare encoding, and for a
non-empty `b` the fully-qualified decoding of `[VERTEXPROPERTY, 0x00] ++ b`
succeeds with `{v, len + 2}` exactly when the bare decoding of `b` succeeds
with `{v, len}`. -/
theorem fullyQualified_is_bare_behind_header (this : Instance) (item : JSValue)
    (hu : item ≠ .undefined) (hn : item ≠ .null) (b : Buffer) (hb : b ≠ [])
    (v : JSValue) (len : Nat) :
    serialize this item true
        = [this.ioc.DataType.VERTEXPROPERTY, 0x00] ++ serialize this item false
    ∧ (deserialize this (.buffer ([this.ioc.DataType.VERTEXPROPERTY, 0x00] ++ b)) true
          = .ok ⟨v, len + 2⟩
        ↔ deserialize this (.buffer b) false = .ok ⟨v, len⟩) := by
  constructor
  · simp [serialize, hu, hn, Buffer.concat, Buffer.from]
  · have ht := deserialize_withHeader this true b (by simp [withHeader])
    have hf := deserialize_withHeader this false b (by simpa [withHeader] using hb)
    simp only [withHeader, if_true, headerLength] at ht
    simp only [withHeader, headerLength] at hf
    have hf2 : deserialize this (.buffer b) false
        = deserializeFields this (.buffer b) false b 0 := by simpa using hf
    have ht2 : deserialize this
          (.buffer ([this.ioc.DataType.VERTEXPROPERTY, 0x00] ++ b)) true
        = deserializeFields this (.buffer (this.ioc.DataType.VERTEXPROPERTY :: 0 :: b))
            true b 2 := by simpa using ht
    rw [hf2, ht2, deserializeFields_ok_iff, deserializeFields_ok_iff]
    constructor
    · rintro ⟨i, l, w, q, p, h1, h2, h3, h4, h5, hr⟩
      refine ⟨i, l, w, q, p, h1, h2, h3, h4, h5, ?_⟩
      injection hr with hv hl
      rw [hv]
      congr 1
      omega
    · rintro ⟨i, l, w, q, p, h1, h2, h3, h4, h5, hr⟩
      refine ⟨i, l, w, q, p, h1, h2, h3, h4, h5, ?_⟩
      injection hr with hv hl
      rw [hv]
      congr 1
      omega

/-- C16 on the nine octets written for `null` in bare format, bare and
behind the header `0x12, 0x00`. -/
theorem fullyQualified_is_bare_behind_header_witness :
    (Sample.item ≠ .undefined ∧ Sample.item ≠ .null
      ∧ ([0xFE, 1, 0, 0xFE, 1, 0xFE, 1, 0xFE, 1] : Buffer) ≠ [])
    ∧ deserialize Sample.serializer
        (.buffer ([0x12, 0x00] ++ [0xFE, 1, 0, 0xFE, 1, 0xFE, 1, 0xFE, 1])) true
      = .ok ⟨.vertexProperty .null "" .null .null .undefined, 9 + 2⟩ :=
  ⟨⟨by simp [Sample.item], by simp [Sample.item], by simp⟩,
   (fullyQualified_is_bare_behind_header Sample.serializer Sample.item
      (by simp [Sample.item]) (by simp [Sample.item])
      [0xFE, 1, 0, 0xFE, 1, 0xFE, 1, 0xFE, 1] (by simp)
      (.vertexProperty .null "" .null .null .undefined) 9).2.2 rfl⟩

/-! ## Null and the two formats -/

/-- The other null codec inverts its encoder on a prefix, and so does the
container that holds it next to the sample generic and string codecs. -/
theorem Sample.otherSerializer_prefixRoundTrip : PrefixRoundTrip Sample.otherSerializer.ioc where
  any := Sample.prefixRoundTrip.any
  string := Sample.prefixRoundTrip.string
  null := by
    intro rest
    simp [Sample.otherSerializer, Sample.otherNullSerializer]

/-- C17, as stated, fails: the container of `Sample.otherSerializer` meets
the prefix round-trip assumption, its null codec writes `0xFD, 0x01`, and the
generic decoder, handed the bare encoding of `null`, rejects the id slot. -/
theorem bare_null_round_trip_counterexample :
    PrefixRoundTrip Sample.otherSerializer.ioc
    ∧ serialize Sample.otherSerializer .null false
        = [0xFD, 1, 0, 0xFD, 1, 0xFD, 1, 0xFD, 1]
    ∧ deserialize Sample.otherSerializer
        (.buffer (serialize Sample.otherSerializer .null false)) false
      = .error ⟨"Error", "VertexPropertySerializer: {id}: malformed value"⟩
    ∧ ¬ (∀ this : Instance, PrefixRoundTrip this.ioc →
        ∃ len, deserialize this (.buffer (serialize this .null false)) false
          = .ok ⟨.vertexProperty .null "" .null .null .undefined, len⟩) := by
  refine ⟨Sample.otherSerializer_prefixRoundTrip, rfl, rfl, ?_⟩
  intro hall
  obtain ⟨len, hlen⟩ := hall Sample.otherSerializer Sample.otherSerializer_prefixRoundTrip
  have herr : deserialize Sample.otherSerializer
      (.buffer (serialize Sample.otherSerializer .null false)) false
      = .error ⟨"Error", "VertexPropertySerializer: {id}: malformed value"⟩ := rfl
  rw [herr] at hlen
  cases hlen

/-- C17, amended: a success of the bare decoding is a vertex property, never
`null`; a success of the fully-qualified decoding is `null` exactly when the
second octet is 1; and when the collaborator decoders invert their encoders
on a prefix and the generic codec writes `null` as the null codec does, the
bare encoding of `null` decodes to the vertex property with id `null`, label
`''`, value `null` and properties `null`. -/
theorem null_only_in_fullyQualified (this : Instance) :
    (∀ buffer r, deserialize this buffer false = .ok r →
        r.v ≠ .null ∧ ∃ i l v p, r.v = .vertexProperty i l v p .undefined)
    ∧ (∀ buffer r, deserialize this buffer true = .ok r →
        (r.v = .null ↔ ∃ b rest, buffer = .buffer (b :: 1 :: rest)))
    ∧ (PrefixRoundTrip this.ioc →
        this.ioc.anySerializer.serialize .null
          = this.ioc.unspecifiedNullSerializer.serialize .null →
        deserialize this (.buffer (serialize this .null false)) false
          = .ok ⟨.vertexProperty .null "" .null .null .undefined,
              (serialize this .null false).length⟩) := by
  refine ⟨?_, ?_, ?_⟩
  · intro buffer r hr
    rcases (deserialize_ok_iff this buffer false r).1 hr with ⟨hfq, _, _⟩ | ⟨body, _, _, hf⟩
    · cases hfq
    · obtain ⟨i, l, v, q, p, _, _, _, _, _, hrv⟩ := (deserializeFields_ok_iff _ _ _ _ _ _).1 hf
      rw [hrv]
      exact ⟨by simp [newVertexProperty], i.v, l.v, v.v, p.v, rfl⟩
  · intro buffer r hr
    rcases (deserialize_ok_iff this buffer true r).1 hr with
      ⟨_, hnull, rest, hbuf⟩ | ⟨body, hbuf, _, hf⟩
    · rw [hnull, hbuf]
      simp
    · obtain ⟨i, l, v, q, p, _, _, _, _, _, hrv⟩ := (deserializeFields_ok_iff _ _ _ _ _ _).1 hf
      rw [hrv, hbuf]
      simp [newVertexProperty, withHeader]
  · intro h hnull
    have hser : serialize this .null false
        = serialize this (.vertexProperty .null "" .null .null .undefined) false := by
      simp [serialize, Buffer.concat, JSValue.id, JSValue.label, JSValue.value,
        JSValue.properties, hnull]
    have := deserialize_serialize_append this h .null "" .null .null .undefined false []
    rw [List.append_nil, ← hser] at this
    simpa [newVertexProperty] using this

/-- C17, amended, on the sample serializer, whose generic codec and null
codec both write `null` as `0xFE, 0x01`. -/
theorem null_only_in_fullyQualified_witness :
    (PrefixRoundTrip Sample.serializer.ioc
      ∧ Sample.serializer.ioc.anySerializer.serialize .null
          = Sample.serializer.ioc.unspecifiedNullSerializer.serialize .null)
    ∧ deserialize Sample.serializer (.buffer (serialize Sample.serializer .null false)) false
        = .ok ⟨.vertexProperty .null "" .null .null .undefined,
            (serialize Sample.serializer .null false).length⟩ :=
  ⟨⟨Sample.prefixRoundTrip, rfl⟩,
   (null_only_in_fullyQualified Sample.serializer).2.2 Sample.prefixRoundTrip rfl⟩

/-! ## The consumed length -/

/-- The sample decoders never report more octets than they were given. -/
theorem Sample.boundedDecoders : BoundedDecoders Sample.ioc where
  any := by
    intro c r h
    simp only [Sample.ioc, Sample.anySerializer] at h
    split at h
    · injection h with h
      rw [← h]
      exact Nat.sub_le _ _
    · cases h
  string := by
    intro c fq r h
    simp only [Sample.ioc, Sample.stringSerializer] at h
    split at h
    · injection h with h
      rw [← h]
      exact Nat.sub_le _ _
    · cases h
  null := by
    intro c r h
    simp only [Sample.ioc, Sample.unspecifiedNullSerializer] at h
    split at h
    · split at h
      · injection h with h
        rw [← h]
        simp
      · cases h
    · cases h

/-- C18: when every collaborator decoder, on success, reports a length no
greater than the length of the slice it was given, a success of
`deserialize` reports a length no greater than the length of the input, and
at least 2 in fully-qualified format. -/
theorem deserialize_len_le (this : Instance) (h : BoundedDecoders this.ioc)
    (buffer : JSValue) (fq : Bool) (r : Decoded)
    (hok : deserialize this buffer fq = .ok r) :
    ∃ bytes, buffer = .buffer bytes ∧ r.len ≤ bytes.length ∧ (fq = true → 2 ≤ r.len) := by
  rcases (deserialize_ok_iff this buffer fq r).1 hok with
    ⟨_, hnull, rest, hbuf⟩ | ⟨body, hbuf, _, hf⟩
  · refine ⟨_, hbuf, ?_, ?_⟩
    · rw [hnull]
      simp
    · intro _
      rw [hnull]
  · obtain ⟨i, l, v, q, p, hi, hl, hv, hq, hp, hrv⟩ :=
      (deserializeFields_ok_iff _ _ _ _ _ _).1 hf
    have b1 := h.any _ _ hi
    have b2 := h.string _ _ _ hl
    have b3 := h.any _ _ hv
    have b4 := h.null _ _ hq
    have b5 := h.any _ _ hp
    simp only [List.length_drop] at b2 b3 b4 b5
    refine ⟨_, hbuf, ?_, ?_⟩
    · rw [hrv]
      cases fq with
      | false =>
        simp only [withHeader, headerLength]
        simp
        omega
      | true =>
        simp only [withHeader, headerLength]
        simp
        omega
    · intro hfq
      rw [hrv, hfq]
      simp only [headerLength]
      simp
      omega

/-- C18 on the nine octets written for `null` in bare format. -/
theorem deserialize_len_le_witness :
    (BoundedDecoders Sample.serializer.ioc
      ∧ deserialize Sample.serializer (.buffer [0xFE, 1, 0, 0xFE, 1, 0xFE, 1, 0xFE, 1]) false
          = .ok ⟨.vertexProperty .null "" .null .null .undefined, 9⟩)
    ∧ ∃ bytes, JSValue.buffer [0xFE, 1, 0, 0xFE, 1, 0xFE, 1, 0xFE, 1] = .buffer bytes
        ∧ 9 ≤ bytes.length ∧ (false = true → 2 ≤ 9) :=
  ⟨⟨Sample.boundedDecoders, rfl⟩,
   deserialize_len_le Sample.serializer Sample.boundedDecoders
     (.buffer [0xFE, 1, 0, 0xFE, 1, 0xFE, 1, 0xFE, 1]) false
     ⟨.vertexProperty .null "" .null .null .undefined, 9⟩ rfl⟩

/-! ## The first failing field -/

/-- C19: the first decoder to fail, in the order id, label, value, parent,
properties, decides the failure: the message gets the name of that field in
front, once, and a second serializer `that` with the same reference, type
code and `utils`, whose decoders agree with those of `this` on the slices of
the fields up to the failing one and behave in any way elsewhere, fails in
the same way. -/
theorem deserialize_first_failure (this that : Instance) (fq : Bool) (body : Buffer)
    (err : Error) (hne : withHeader this fq body ≠ [])
    (href : that.ref = this.ref) (hdt : that.ioc.DataType = this.ioc.DataType)
    (hut : that.ioc.utils = this.ioc.utils) :
    (this.ioc.anySerializer.deserialize body = .error err →
      that.ioc.anySerializer.deserialize body = this.ioc.anySerializer.deserialize body →
      deserialize this (.buffer (withHeader this fq body)) fq
          = fieldFailure this fq body body "{id}: " err
      ∧ deserialize that (.buffer (withHeader this fq body)) fq
          = deserialize this (.buffer (withHeader this fq body)) fq)
    ∧ (∀ i : Decoded,
      this.ioc.anySerializer.deserialize body = .ok i →
      this.ioc.stringSerializer.deserialize (body.drop i.len) false = .error err →
      that.ioc.anySerializer.deserialize body = this.ioc.anySerializer.deserialize body →
      that.ioc.stringSerializer.deserialize (body.drop i.len) false
        = this.ioc.stringSerializer.deserialize (body.drop i.len) false →
      deserialize this (.buffer (withHeader this fq body)) fq
          = fieldFailure this fq body (body.drop i.len) "{label}: " err
      ∧ deserialize that (.buffer (withHeader this fq body)) fq
          = deserialize this (.buffer (withHeader this fq body)) fq)
    ∧ (∀ (i : Decoded) (l : DecodedString),
      this.ioc.anySerializer.deserialize body = .ok i →
      this.ioc.stringSerializer.deserialize (body.drop i.len) false = .ok l →
      this.ioc.anySerializer.deserialize ((body.drop i.len).drop l.len) = .error err →
      that.ioc.anySerializer.deserialize body = this.ioc.anySerializer.deserialize body →
      that.ioc.stringSerializer.deserialize (body.drop i.len) false
        = this.ioc.stringSerializer.deserialize (body.drop i.len) false →
      that.ioc.anySerializer.deserialize ((body.drop i.len).drop l.len)
        = this.ioc.anySerializer.deserialize ((body.drop i.len).drop l.len) →
      deserialize this (.buffer (withHeader this fq body)) fq
          = fieldFailure this fq body ((body.drop i.len).drop l.len) "{value}: " err
      ∧ deserialize that (.buffer (withHeader this fq body)) fq
          = deserialize this (.buffer (withHeader this fq body)) fq)
    ∧ (∀ (i : Decoded) (l : DecodedString) (v : Decoded),
      this.ioc.anySerializer.deserialize body = .ok i →
      this.ioc.stringSerializer.deserialize (body.drop i.len) false = .ok l →
      this.ioc.anySerializer.deserialize ((body.drop i.len).drop l.len) = .ok v →
      this.ioc.unspecifiedNullSerializer.deserialize
          (((body.drop i.len).drop l.len).drop v.len) = .error err →
      that.ioc.anySerializer.deserialize body = this.ioc.anySerializer.deserialize body →
      that.ioc.stringSerializer.deserialize (body.drop i.len) false
        = this.ioc.stringSerializer.deserialize (body.drop i.len) false →
      that.ioc.anySerializer.deserialize ((body.drop i.len).drop l.len)
        = this.ioc.anySerializer.deserialize ((body.drop i.len).drop l.len) →
      that.ioc.unspecifiedNullSerializer.deserialize
          (((body.drop i.len).drop l.len).drop v.len)
        = this.ioc.unspecifiedNullSerializer.deserialize
          (((body.drop i.len).drop l.len).drop v.len) →
      deserialize this (.buffer (withHeader this fq body)) fq
          = fieldFailure this fq body (((body.drop i.len).drop l.len).drop v.len)
              "{parent}: " err
      ∧ deserialize that (.buffer (withHeader this fq body)) fq
          = deserialize this (.buffer (withHeader this fq body)) fq)
    ∧ (∀ (i : Decoded) (l : DecodedString) (v q : Decoded),
      this.ioc.anySerializer.deserialize body = .ok i →
      this.ioc.stringSerializer.deserialize (body.drop i.len) false = .ok l →
      this.ioc.anySerializer.deserialize ((body.drop i.len).drop l.len) = .ok v →
      this.ioc.unspecifiedNullSerializer.deserialize
          (((body.drop i.len).drop l.len).drop v.len) = .ok q →
      this.ioc.anySerializer.deserialize
          ((((body.drop i.len).drop l.len).drop v.len).drop q.len) = .error err →
      that.ioc.anySerializer.deserialize body = this.ioc.anySerializer.deserialize body →
      that.ioc.stringSerializer.deserialize (body.drop i.len) false
        = this.ioc.stringSerializer.deserialize (body.drop i.len) false →
      that.ioc.anySerializer.deserialize ((body.drop i.len).drop l.len)
        = this.ioc.anySerializer.deserialize ((body.drop i.len).drop l.len) →
      that.ioc.unspecifiedNullSerializer.deserialize
          (((body.drop i.len).drop l.len).drop v.len)
        = this.ioc.unspecifiedNullSerializer.deserialize
          (((body.drop i.len).drop l.len).drop v.len) →
      that.ioc.anySerializer.deserialize
          ((((body.drop i.len).drop l.len).drop v.len).drop q.len)
        = this.ioc.anySerializer.deserialize
          ((((body.drop i.len).drop l.len).drop v.len).drop q.len) →
      deserialize this (.buffer (withHeader this fq body)) fq
          = fieldFailure this fq body
              ((((body.drop i.len).drop l.len).drop v.len).drop q.len) "{properties}: " err
      ∧ deserialize that (.buffer (withHeader this fq body)) fq
          = deserialize this (.buffer (withHeader this fq body)) fq) := by
  have hw : withHeader that fq body = withHeader this fq body := by
    simp [withHeader, hdt]
  have hthat := deserialize_withHeader that fq body (by rw [hw]; exact hne)
  rw [hw] at hthat
  rw [hthat, deserialize_withHeader this fq body hne]
  refine ⟨?_, ?_, ?_, ?_, ?_⟩
  · intro hi ti
    rw [hi] at ti
    simp [deserializeFields, hi, ti, rethrow, fieldFailure, prependMessage, href, hut]
  · intro i hi hl ti tl
    rw [hi] at ti
    rw [hl] at tl
    simp [deserializeFields, hi, hl, ti, tl, Buffer.slice, rethrow, fieldFailure,
      prependMessage, href, hut]
  · intro i l hi hl hv ti tl tv
    rw [hi] at ti
    rw [hl] at tl
    rw [hv] at tv
    simp only [List.drop_drop] at hv tv
    simp [deserializeFields, hi, hl, hv, ti, tl, tv, Buffer.slice, rethrow, fieldFailure,
      prependMessage, href, hut]
  · intro i l v hi hl hv hq ti tl tv tq
    rw [hi] at ti
    rw [hl] at tl
    rw [hv] at tv
    rw [hq] at tq
    simp only [List.drop_drop] at hv tv hq tq
    simp [deserializeFields, hi, hl, hv, hq, ti, tl, tv, tq, Buffer.slice, rethrow,
      fieldFailure, prependMessage, href, hut]
  · intro i l v q hi hl hv hq hp ti tl tv tq tp
    rw [hi] at ti
    rw [hl] at tl
    rw [hv] at tv
    rw [hq] at tq
    rw [hp] at tp
    simp only [List.drop_drop] at hv tv hq tq hp tp
    simp [deserializeFields, hi, hl, hv, hq, hp, ti, tl, tv, tq, tp, Buffer.slice, rethrow,
      fieldFailure, prependMessage, href, hut]

/-- C19 on the input `[0x12, 0x00, 0x00, 0x07]`: the label is the first field
to fail, and the serializer with the other null codec, which differs from
the sample one only in the decoder of the parent slot, fails in the same way. -/
theorem deserialize_first_failure_witness :
    (withHeader Sample.serializer true [0, 7] ≠ []
      ∧ Sample.otherSerializer.ref = Sample.serializer.ref
      ∧ Sample.otherSerializer.ioc.DataType = Sample.serializer.ioc.DataType
      ∧ Sample.otherSerializer.ioc.utils = Sample.serializer.ioc.utils
      ∧ Sample.serializer.ioc.anySerializer.deserialize [0, 7] = .ok ⟨.undefined, 1⟩
      ∧ Sample.serializer.ioc.stringSerializer.deserialize [7] false
          = .error (newError "malformed string"))
    ∧ deserialize Sample.serializer (.buffer [0x12, 0, 0, 7]) true
        = .error ⟨"Error", "VertexPropertySerializer: {label}: malformed string"⟩
    ∧ deserialize Sample.otherSerializer (.buffer [0x12, 0, 0, 7]) true
        = deserialize Sample.serializer (.buffer [0x12, 0, 0, 7]) true :=
  ⟨⟨by simp [withHeader], rfl, rfl, rfl, rfl, rfl⟩,
   (deserialize_first_failure Sample.serializer Sample.otherSerializer true [0, 7]
      (newError "malformed string") (by simp [withHeader]) rfl rfl rfl).2.1
      ⟨.undefined, 1⟩ rfl rfl rfl rfl⟩

end VertexPropertySerializer
